import Mathlib

/-!
# Truffle (Mirai): actor table, scene / controller registry, message queues

A shallow embedding of

* `src/engine/actor_table.cpp` : `ActorTable::lookup_`, `ActorTable::add_`
* `src/object_tree.h`          : `TruffleScene`, `TruffleController`, `TruffleObject`
* `src/main.cpp`               : `Illustya`, `Counter`

Conventions of the embedding.

* A C++ reference (`Actor&`, `std::reference_wrapper<T>`) is the referenced
  object's address (`addr : Nat`) together with the fields that the code reads
  through the reference.
* A hash map keyed by `std::string` is an association list with at most one
  meaningful entry per key: `find` returns the first entry with the key,
  `emplace` inserts only when the key is absent, `operator[]` inserts a default
  value when the key is absent.  The list order is an artefact of the model, the
  code never depends on it in the functions below.
* A `std::vector` is a `List` in index order, `emplace_back` appends at the end.
* A `std::queue` is a `List` whose head is the front, `push` appends at the end.
* A `std::shared_ptr<std::queue<Message>>` is `Option Nat`: `none` is the null
  pointer, `some p` is the address `p` of a queue object in the queue heap.
* A member function that mutates its object returns the new object; a function
  that can throw returns the state reached together with an `Except` value, so
  the state at the moment of the throw stays observable.
* Code that the sources call but do not contain (`bus.h`, the state manager, the
  renderables) is modelled from the specification; each such definition says so.
-/

namespace Truffle

/-! ## Hash maps keyed by strings -/

/-- The value stored under key `k`, `none` when `find(k) == end()`. -/
def mapFind {β : Type} : List (String × β) → String → Option β
  | [], _ => none
  | (k', v) :: rest, k => if k' = k then some v else mapFind rest k

/-- The map after `emplace(k, v)`: a new entry when `k` is absent, no change otherwise. -/
def mapEmplace {β : Type} (m : List (String × β)) (k : String) (v : β) : List (String × β) :=
  match mapFind m k with
  | some _ => m
  | none => m ++ [(k, v)]

/-- The map after an assignment through the reference that `operator[]` returned for
an existing key `k`; the first entry with key `k` is overwritten. -/
def mapAssign {β : Type} : List (String × β) → String → β → List (String × β)
  | [], _, _ => []
  | (k', v') :: rest, k, v =>
    if k' = k then (k', v) :: rest else (k', v') :: mapAssign rest k v

/-- The expression `m[k]`: the map after the access (a default value `dflt` is inserted
when `k` is absent) and the value the returned reference points to. -/
def mapIndex {β : Type} (m : List (String × β)) (k : String) (dflt : β) :
    List (String × β) × β :=
  match mapFind m k with
  | some v => (m, v)
  | none => (m ++ [(k, dflt)], dflt)

/-! ## Actor table (`src/engine/actor_table.cpp`) -/

/-- An `Actor` as the table sees it: its identity and the value of `name()`. -/
structure Actor where
  addr : Nat
  name : String
deriving DecidableEq, Repr

/-- The type `ActorRef`, a reference to an `Actor`. -/
abbrev ActorRef := Actor

/-- The type `Address`, with the two fields the table reads. -/
structure Address where
  controller : String
  object : String
deriving DecidableEq, Repr

/-- The class `ActorTable`; `table_` maps a controller name to a vector of `ActorRef`. -/
structure ActorTable where
  table_ : List (String × List ActorRef)
deriving DecidableEq, Repr

/-- The table of a freshly constructed `ActorTable`. -/
def ActorTable.empty : ActorTable := ⟨[]⟩

/-- The method `ActorTable::lookup_` (the calls to `Logger::log` only trace).  The result
is the table after the call and the returned `std::optional<ActorRef>`. -/
def ActorTable.lookup_ (t : ActorTable) (address : Address) : ActorTable × Option ActorRef :=
  if (mapFind t.table_ address.controller).isNone then
    (t, none)
  else
    let r := mapIndex t.table_ address.controller []
    match r.2.find? (fun actor => actor.name == address.object) with
    | some actor => (⟨r.1⟩, some actor)
    | none => (⟨r.1⟩, none)

/-- The method `ActorTable::add_`. -/
def ActorTable.add_ (t : ActorTable) (address : Address) (actor : Actor) : ActorTable :=
  if (mapFind t.table_ address.controller).isNone then
    ⟨mapEmplace t.table_ address.controller [actor]⟩
  else
    let r := mapIndex t.table_ address.controller []
    if r.2.any (fun a => a.name == address.object) then
      ⟨r.1⟩
    else
      let r2 := mapIndex r.1 address.controller []
      ⟨mapAssign r2.1 address.controller (r2.2 ++ [actor])⟩

/-- The table reached from `t` by a sequence of `add_` calls, first call first. -/
def ActorTable.addAll (t : ActorTable) (calls : List (Address × Actor)) : ActorTable :=
  calls.foldl (fun acc call => acc.add_ call.1 call.2) t

/-- The bucket of controller `c`, `none` when the table has no bucket for `c`. -/
def ActorTable.bucket (t : ActorTable) (c : String) : Option (List ActorRef) :=
  mapFind t.table_ c

/-- Every `add_` call of the sequence registers an actor under its own name:
the `object` of the address is the value of the actor's `name()`. -/
def SelfNamed (calls : List (Address × Actor)) : Prop :=
  ∀ call ∈ calls, call.2.name = call.1.object

/-- No bucket of the table holds two entries with equal names. -/
def ActorTable.UniqueNames (t : ActorTable) : Prop :=
  ∀ entry ∈ t.table_, (entry.2.map Actor.name).Nodup

/-- The entries of the table are filed under addresses other than `a`. -/
def ActorTable.Avoids (t : ActorTable) (a : Address) : Prop :=
  ∀ entry ∈ t.table_, ∀ actor ∈ entry.2, (⟨entry.1, actor.name⟩ : Address) ≠ a

/-! ## Messages, queues and the message bus -/

/-- The type `Message` (declared in `message.h`), built from a string as in
`Message{"message"}`. -/
structure Message where
  body : String
deriving DecidableEq, Repr

/-- The exception type `TruffleException`, carrying its text. -/
structure TruffleException where
  what : String
deriving DecidableEq, Repr

/-- Equality of call results is decidable. -/
instance instDecidableEqExcept {ε α : Type} [DecidableEq ε] [DecidableEq α] :
    DecidableEq (Except ε α)
  | .ok a, .ok b =>
    if h : a = b then isTrue (by rw [h]) else isFalse (fun h2 => h (Except.ok.inj h2))
  | .error a, .error b =>
    if h : a = b then isTrue (by rw [h]) else isFalse (fun h2 => h (Except.error.inj h2))
  | .ok _, .error _ => isFalse (fun h => Except.noConfusion h)
  | .error _, .ok _ => isFalse (fun h => Except.noConfusion h)

/-- The address of a `std::queue<Message>` object. -/
abbrev QueuePtr := Nat

/-- The `std::queue<Message>` objects of the process, by address. -/
abbrev QueueHeap := List (List Message)

/-- The heap after `push(m)` on the queue at address `p`; a `p` that is not the address
of a queue, which no `shared_ptr` of the program is, leaves the heap as it is. -/
def QueueHeap.push (heap : QueueHeap) (p : QueuePtr) (m : Message) : QueueHeap :=
  match heap[p]? with
  | some q => heap.set p (q ++ [m])
  | none => heap

/-- Modelled from the spec: the class `EventMessageBus` of `bus.h`, which is not among the
sources.  The bus is the process-wide registry of one FIFO queue per controller name;
`queues_` maps a controller name to the address of its queue. -/
structure EventMessageBus where
  queues_ : List (String × QueuePtr)
deriving DecidableEq, Repr

/-- Modelled from the spec: `EventMessageBus::getMessageQueue` of `bus.h`, which is not
among the sources: "returns the existing queue for that name or creates one on first
request; subsequent requests for the same name return a handle to the same queue". -/
def EventMessageBus.getMessageQueue (bus : EventMessageBus) (heap : QueueHeap)
    (name : String) : QueueHeap × EventMessageBus × QueuePtr :=
  match mapFind bus.queues_ name with
  | some p => (heap, bus, p)
  | none => (heap ++ [[]], ⟨bus.queues_ ++ [(name, heap.length)]⟩, heap.length)

/-- Modelled from the spec: `EventMessageBus::sendMessage` of `bus.h`, which is not among
the sources: "enqueues `message` onto the named controller's queue; returns false (does
not throw) if no queue exists for that name yet". -/
def EventMessageBus.sendMessage (bus : EventMessageBus) (heap : QueueHeap)
    (name : String) (message : Message) : QueueHeap × EventMessageBus × Bool :=
  match mapFind bus.queues_ name with
  | some p => (heap.push p message, bus, true)
  | none => (heap, bus, false)

/-! ## Scene, controller, object (`src/object_tree.h`) -/

/-- A `TruffleObject` as its controller sees it: identity and `name()`. -/
structure TruffleObject where
  addr : Nat
  name_ : String
deriving DecidableEq, Repr

/-- The class `TruffleController`: `parent_scene_` is the address of the scene,
`objects_` maps an object name to the address of the object. -/
structure TruffleController where
  addr : Nat
  parent_scene_ : Nat
  objects_ : List (String × Nat)
  message_queue_ : Option QueuePtr
  name_ : String
deriving DecidableEq, Repr

/-- The class `TruffleScene`: `controllers_` maps a controller name to the address of
the controller.  The member `bus_` refers to the one `EventMessageBus` of the process,
whose state the functions below take and return. -/
structure TruffleScene where
  addr : Nat
  name_ : String
  controllers_ : List (String × Nat)
deriving DecidableEq, Repr

/-- The constructor `TruffleScene::TruffleScene`. -/
def TruffleScene.new (addr : Nat) (scene_name : String) : TruffleScene :=
  { addr := addr, name_ := scene_name, controllers_ := [] }

/-- The method `TruffleController::setMessageQueue`. -/
def TruffleController.setMessageQueue (c : TruffleController)
    (message_queue_ptr : Option QueuePtr) : TruffleController :=
  { c with message_queue_ := message_queue_ptr }

/-- The method `TruffleController::addObject`. -/
def TruffleController.addObject (c : TruffleController) (object : TruffleObject) :
    TruffleController × Except TruffleException Unit :=
  if (mapFind c.objects_ object.name_).isSome then
    (c, .error ⟨"Duplicated name object can't be registered"⟩)
  else
    ({ c with objects_ := mapEmplace c.objects_ object.name_ object.addr }, .ok ())

/-- The method `TruffleController::recvMessage`.  The result is `none` when the
assertion `message_queue_ != nullptr` fails (or the pointer is not the address of a
queue); otherwise it is the returned `std::optional<Message>` and the heap after the
call. -/
def TruffleController.recvMessage (c : TruffleController) (heap : QueueHeap) :
    Option (Option Message × QueueHeap) :=
  match c.message_queue_ with
  | none => none
  | some p =>
    match heap[p]? with
    | none => none
    | some [] => some (none, heap)
    | some (message :: rest) => some (some message, heap.set p rest)

/-- The template `TruffleScene::sendMessage`: the result of `bus_.sendMessage` is
returned as it is; the body has no `throw`. -/
def TruffleScene.sendMessage (_s : TruffleScene) (heap : QueueHeap) (bus : EventMessageBus)
    (dst_controller : String) (message : Message) :
    QueueHeap × EventMessageBus × Except TruffleException Bool :=
  let r := bus.sendMessage heap dst_controller message
  (r.1, r.2.1, .ok r.2.2)

/-- The state after a call of `TruffleScene::setController`: the scene, the queue heap,
the bus and the controller `b` as the call left them, and whether the call returned
(`.ok ()`) or threw. -/
structure Registration where
  scene : TruffleScene
  heap : QueueHeap
  bus : EventMessageBus
  controller : TruffleController
  outcome : Except TruffleException Unit
deriving DecidableEq, Repr

/-- The call ended with a `throw`. -/
def Raised {α : Type} (r : Except TruffleException α) : Prop :=
  ∃ e, r = .error e

/-- The method `TruffleScene::setController` (the call to `log` only traces). -/
def TruffleScene.setController (s : TruffleScene) (heap : QueueHeap) (bus : EventMessageBus)
    (b : TruffleController) : Registration :=
  if (mapFind s.controllers_ b.name_).isSome then
    { scene := s, heap := heap, bus := bus, controller := b,
      outcome := .error ⟨"controller " ++ b.name_ ++ " had already registered"⟩ }
  else
    let r := bus.getMessageQueue heap b.name_
    let b1 := b.setMessageQueue (some r.2.2)
    { scene := { s with controllers_ := mapEmplace s.controllers_ b1.name_ b1.addr },
      heap := r.1, bus := r.2.1, controller := b1, outcome := .ok () }

/-- The constructor `TruffleController::TruffleController`, building the controller at
address `addr`: the members are initialised and `parent_scene_.setController(*this)`
runs; when that call throws, so does the constructor. -/
def TruffleController.new (addr : Nat) (parent_scene : TruffleScene) (heap : QueueHeap)
    (bus : EventMessageBus) (name : String) : Registration :=
  parent_scene.setController heap bus
    { addr := addr, parent_scene_ := parent_scene.addr, objects_ := [],
      message_queue_ := none, name_ := name }

/-- The calls `sendMessage(dst, m)` on scene `s` for each `m` of `ms` in turn: the heap
and bus after the last call and the list of results, first call first. -/
def sendAll (s : TruffleScene) (dst : String) :
    List Message → QueueHeap → EventMessageBus →
      QueueHeap × EventMessageBus × List (Except TruffleException Bool)
  | [], heap, bus => (heap, bus, [])
  | m :: ms, heap, bus =>
    let r := s.sendMessage heap bus dst m
    let rs := sendAll s dst ms r.1 r.2.1
    (rs.1, rs.2.1, r.2.2 :: rs.2.2)

/-- The first `n` calls of `c.recvMessage()` in turn: the list of results, first call
first, and the heap after the last call; `none` when a call fails its assertion. -/
def recvMany (c : TruffleController) : Nat → QueueHeap →
    Option (List (Option Message) × QueueHeap)
  | 0, heap => some ([], heap)
  | n + 1, heap =>
    match c.recvMessage heap with
    | none => none
    | some (r, heap1) =>
      match recvMany c n heap1 with
      | none => none
      | some (rs, heap2) => some (r :: rs, heap2)

/-- A later call that touches the queues: a send through a scene, the registration of a
controller with a scene, or a `recvMessage` of a controller. -/
inductive QueueCall where
  | send (s : TruffleScene) (dst_controller : String) (message : Message)
  | register (s : TruffleScene) (b : TruffleController)
  | recv (c : TruffleController)
deriving DecidableEq, Repr

/-- The heap and bus after the calls of `calls`, in turn. -/
def runQueueCalls : List QueueCall → QueueHeap → EventMessageBus → QueueHeap × EventMessageBus
  | [], heap, bus => (heap, bus)
  | .send s dst m :: calls, heap, bus =>
    let r := s.sendMessage heap bus dst m
    runQueueCalls calls r.1 r.2.1
  | .register s b :: calls, heap, bus =>
    let r := s.setController heap bus b
    runQueueCalls calls r.heap r.bus
  | .recv c :: calls, heap, bus =>
    match c.recvMessage heap with
    | some r => runQueueCalls calls r.2 bus
    | none => runQueueCalls calls heap bus

/-- The template `TruffleController::sendMessage`: the call goes to
`parent_scene_.sendMessage` and its result is dropped.  The scene passed is the one
`parent_scene_` refers to. -/
def TruffleController.sendMessage (_c : TruffleController) (parent_scene : TruffleScene)
    (heap : QueueHeap) (bus : EventMessageBus) (dst_controller : String) (message : Message) :
    QueueHeap × EventMessageBus :=
  let r := parent_scene.sendMessage heap bus dst_controller message
  (r.1, r.2.1)

/-- The state that `TruffleScene::initScene` runs in: the scene, the heap of queues, the
bus, and the log of `start()` invocations, each recorded as the address of the controller
it was invoked on. -/
structure InitState where
  scene : TruffleScene
  heap : QueueHeap
  bus : EventMessageBus
  started : List Nat
deriving DecidableEq, Repr

/-- One turn of the loop of `initScene`: `cb.get().start()` on the controller at address
`cb`.  The body of `TruffleController::start` is empty and the overrides of `main.cpp`
write to `std::cout` or load a texture, so the invocation shows in the log only. -/
def startStep (st : InitState) (cb : Nat) : InitState :=
  { st with started := st.started ++ [cb] }

/-- The method `TruffleScene::initScene`: the loop over the entries of `controllers_`. -/
def TruffleScene.initScene (s : TruffleScene) (heap : QueueHeap) (bus : EventMessageBus) :
    InitState :=
  s.controllers_.foldl (fun st entry => startStep st entry.2)
    { scene := s, heap := heap, bus := bus, started := [] }

/-- The constructors `TruffleController(scene, name)` run in turn for the pairs
`(address, name)` of `ctrls`, all with the same parent scene: the scene, heap and bus
after the last one and the addresses of the controllers whose constructor returned. -/
def constructAll : List (Nat × String) → TruffleScene → QueueHeap → EventMessageBus →
    TruffleScene × QueueHeap × EventMessageBus × List Nat
  | [], s, heap, bus => (s, heap, bus, [])
  | (addr, name) :: rest, s, heap, bus =>
    let r := TruffleController.new addr s heap bus name
    let rs := constructAll rest r.scene r.heap r.bus
    match r.outcome with
    | .ok _ => (rs.1, rs.2.1, rs.2.2.1, addr :: rs.2.2.2)
    | .error _ => rs

/-- A controller, its parent scene, and the queues and bus of the process. -/
structure Process where
  scene : TruffleScene
  heap : QueueHeap
  bus : EventMessageBus
  controller : TruffleController
deriving DecidableEq, Repr

/-- A call of a public member function of the controller or of its scene. -/
inductive PublicCall where
  | sceneSendMessage (dst_controller : String) (message : Message)
  | sendMessage (dst_controller : String) (message : Message)
  | recvMessage
  | addObject (object : TruffleObject)
  | setMessageQueue (message_queue_ptr : Option QueuePtr)
  | initScene
deriving DecidableEq, Repr

/-- The call is `setMessageQueue`. -/
def PublicCall.isSetMessageQueue : PublicCall → Bool
  | .setMessageQueue _ => true
  | _ => false

/-- The process after one public call; a call that throws or fails its assertion leaves
the state it had reached. -/
def runPublicCall (w : Process) : PublicCall → Process
  | .sceneSendMessage dst m =>
    let r := w.scene.sendMessage w.heap w.bus dst m
    { w with heap := r.1, bus := r.2.1 }
  | .sendMessage dst m =>
    let r := w.controller.sendMessage w.scene w.heap w.bus dst m
    { w with heap := r.1, bus := r.2 }
  | .recvMessage =>
    match w.controller.recvMessage w.heap with
    | some r => { w with heap := r.2 }
    | none => w
  | .addObject object => { w with controller := (w.controller.addObject object).1 }
  | .setMessageQueue ptr => { w with controller := w.controller.setMessageQueue ptr }
  | .initScene =>
    let r := w.scene.initScene w.heap w.bus
    { w with scene := r.scene, heap := r.heap, bus := r.bus }

/-- The process after the public calls of `calls`, in turn. -/
def runPublicCalls (w : Process) (calls : List PublicCall) : Process :=
  calls.foldl runPublicCall w

/-! ## The state manager and the renderables (not among the sources) -/

/-- Modelled from the spec: the class template `StatefulObjectManager<T, State>`, whose
header is not among the sources: it "owns N instances of one renderable type, one per
distinct state key; owns a transition-adjacency relation; owns the single active state
key".  A manager value is a manager on which `setInitStatefulObject` has run. -/
structure StatefulObjectManager (T : Type) (σ : Type) where
  objects_ : List (σ × T)
  transitions_ : List (σ × σ)
  active_ : σ
deriving DecidableEq, Repr

/-- The instance bound to `state`, `none` when `state` is unbound. -/
def boundObject {T σ : Type} [DecidableEq σ] : List (σ × T) → σ → Option T
  | [], _ => none
  | (k, obj) :: rest, state => if k = state then some obj else boundObject rest state

/-- The bindings after a member function `f` ran on the instance bound to `state`. -/
def onBound {T σ : Type} [DecidableEq σ] (f : T → T) : List (σ × T) → σ → List (σ × T)
  | [], _ => []
  | (k, obj) :: rest, state =>
    if k = state then (k, f obj) :: rest else (k, obj) :: onBound f rest state

/-- Modelled from the spec: `StatefulObjectManager::setInitStatefulObject`, not among the
sources: "constructs the first bound instance and marks `state` as the active state". -/
def StatefulObjectManager.setInitStatefulObject {T σ : Type} (state : σ) (object : T) :
    StatefulObjectManager T σ :=
  { objects_ := [(state, object)], transitions_ := [], active_ := state }

/-- Modelled from the spec: `StatefulObjectManager::bindStatefulObject`, not among the
sources: "constructs an additional instance bound to `state`; fails if `state` already
bound". -/
def StatefulObjectManager.bindStatefulObject {T σ : Type} [DecidableEq σ]
    (m : StatefulObjectManager T σ) (state : σ) (object : T) :
    StatefulObjectManager T σ × Except TruffleException Unit :=
  match boundObject m.objects_ state with
  | some _ => (m, .error ⟨"state already bound"⟩)
  | none => ({ m with objects_ := m.objects_ ++ [(state, object)] }, .ok ())

/-- Modelled from the spec: `StatefulObjectManager::setStateTransition`, not among the
sources: "declares `to` a legal successor of `from`; the relation is directed". -/
def StatefulObjectManager.setStateTransition {T σ : Type} (m : StatefulObjectManager T σ)
    (src dst : σ) : StatefulObjectManager T σ :=
  { m with transitions_ := m.transitions_ ++ [(src, dst)] }

/-- Modelled from the spec: `StatefulObjectManager::stateTransition`, not among the
sources: "legal only if `to` is in the declared successor set of the current active
state; on success, updates the active state pointer"; an undeclared transition "leaves
`activeState()` unchanged and signals an error". -/
def StatefulObjectManager.stateTransition {T σ : Type} [DecidableEq σ]
    (m : StatefulObjectManager T σ) (dst : σ) :
    StatefulObjectManager T σ × Except TruffleException Unit :=
  if (m.active_, dst) ∈ m.transitions_ then
    ({ m with active_ := dst }, .ok ())
  else
    (m, .error ⟨"undeclared state transition"⟩)

/-- Modelled from the spec: `StatefulObjectManager::activeState`, not among the sources. -/
def StatefulObjectManager.activeState {T σ : Type} (m : StatefulObjectManager T σ) : σ :=
  m.active_

/-- Modelled from the spec: `StatefulObjectManager::statefulObject`, not among the
sources: the instance bound to `state`; "`statefulObject` on an unbound state is an
error". -/
def StatefulObjectManager.statefulObject {T σ : Type} [DecidableEq σ]
    (m : StatefulObjectManager T σ) (state : σ) : Except TruffleException T :=
  match boundObject m.objects_ state with
  | some object => .ok object
  | none => .error ⟨"unbound state"⟩

/-- Modelled from the spec: the statement `m.statefulObject(state).f()`, a member
function `f` run on the instance through the reference that `statefulObject` returns. -/
def StatefulObjectManager.onStatefulObject {T σ : Type} [DecidableEq σ]
    (m : StatefulObjectManager T σ) (state : σ) (f : T → T) :
    StatefulObjectManager T σ × Except TruffleException Unit :=
  match boundObject m.objects_ state with
  | some _ => ({ m with objects_ := onBound f m.objects_ state }, .ok ())
  | none => (m, .error ⟨"unbound state"⟩)

/-- Modelled from the spec: the renderable `ImageTexture` of `texture.h`, not among the
sources, with its constructor arguments and the render flag that `enableRender` and
`disableRender` switch. -/
structure ImageTexture where
  path : String
  name : String
  x : Int
  y : Int
  render_enabled : Bool
deriving DecidableEq, Repr

/-- Modelled from the spec: the constructor of `ImageTexture`, not among the sources; a
renderable is render-enabled when constructed. -/
def ImageTexture.new (path name : String) (x y : Int) : ImageTexture :=
  { path := path, name := name, x := x, y := y, render_enabled := true }

/-- Modelled from the spec: `Renderable::enableRender`, not among the sources. -/
def ImageTexture.enableRender (t : ImageTexture) : ImageTexture :=
  { t with render_enabled := true }

/-- Modelled from the spec: `Renderable::disableRender`, not among the sources. -/
def ImageTexture.disableRender (t : ImageTexture) : ImageTexture :=
  { t with render_enabled := false }

/-! ## Illustya (`src/main.cpp`) -/

/-- The event the frame loop hands to `update`; `type` is the member `ev.type`. -/
structure SDL_Event where
  type : Nat
deriving DecidableEq, Repr

/-- The SDL constant `SDL_KEYDOWN`. -/
def SDL_KEYDOWN : Nat := 0x300

/-- The SDL constant `SDL_KEYUP`. -/
def SDL_KEYUP : Nat := 0x301

/-- The enumeration `IllustyaState`. -/
inductive IllustyaState where
  | Normal
  | Hovered
deriving DecidableEq, Repr

/-- The class `Illustya`: its one data member.  The base class `TruffleBehavior` is not
among the sources; its state stays outside. -/
structure Illustya where
  state_manager_ : StatefulObjectManager ImageTexture IllustyaState
deriving DecidableEq, Repr

/-- The constant `Illustya::name`. -/
def Illustya.name : String := "illustya_behavior"

/-- The constructor `Illustya::Illustya`.  The base class is not among the sources:
`base` is the state of the base subobject after its constructor and `addRenderable` is
its member function, which gets the renderable by reference and may throw.  The result
is the base state reached and the constructed object, or the exception. -/
def Illustya.new {β : Type}
    (addRenderable : β → ImageTexture → β × Except TruffleException Unit) (base : β) :
    β × Except TruffleException Illustya :=
  let m0 : StatefulObjectManager ImageTexture IllustyaState :=
    StatefulObjectManager.setInitStatefulObject IllustyaState.Normal
      (ImageTexture.new "../testdata/home.png" Illustya.name 0 0)
  let r1 := m0.bindStatefulObject IllustyaState.Hovered
    (ImageTexture.new "../testdata/top.png" Illustya.name 50 0)
  match r1.2 with
  | .error e => (base, .error e)
  | .ok _ =>
    let m1 := r1.1.setStateTransition IllustyaState.Normal IllustyaState.Hovered
    let m2 := m1.setStateTransition IllustyaState.Hovered IllustyaState.Normal
    match m2.statefulObject IllustyaState.Normal with
    | .error e => (base, .error e)
    | .ok home =>
      let b1 := addRenderable base home
      match b1.2 with
      | .error e => (b1.1, .error e)
      | .ok _ =>
        let r3 := m2.onStatefulObject IllustyaState.Hovered ImageTexture.disableRender
        match r3.2 with
        | .error e => (b1.1, .error e)
        | .ok _ =>
          match r3.1.statefulObject IllustyaState.Hovered with
          | .error e => (b1.1, .error e)
          | .ok top =>
            let b2 := addRenderable b1.1 top
            match b2.2 with
            | .error e => (b2.1, .error e)
            | .ok _ => (b2.1, .ok ⟨r3.1⟩)

/-- The three statements of a branch of `Illustya::update`: the transition to `dst`,
then `disableRender` on the instance of `hidden` and `enableRender` on the instance of
`shown`; an exception ends the branch at the statement that threw. -/
def Illustya.switchTo (i : Illustya) (dst hidden shown : IllustyaState) :
    Illustya × Except TruffleException Unit :=
  let r1 := i.state_manager_.stateTransition dst
  match r1.2 with
  | .error e => (⟨r1.1⟩, .error e)
  | .ok _ =>
    let r2 := r1.1.onStatefulObject hidden ImageTexture.disableRender
    match r2.2 with
    | .error e => (⟨r2.1⟩, .error e)
    | .ok _ =>
      let r3 := r2.1.onStatefulObject shown ImageTexture.enableRender
      (⟨r3.1⟩, r3.2)

/-- The method `Illustya::update`. -/
def Illustya.update (i : Illustya) (ev : SDL_Event) : Illustya × Except TruffleException Unit :=
  if ev.type = SDL_KEYDOWN ∧ i.state_manager_.activeState = IllustyaState.Normal then
    i.switchTo IllustyaState.Hovered IllustyaState.Normal IllustyaState.Hovered
  else if ev.type = SDL_KEYUP ∧ i.state_manager_.activeState = IllustyaState.Hovered then
    i.switchTo IllustyaState.Normal IllustyaState.Hovered IllustyaState.Normal
  else
    (i, .ok ())

/-- The state that the `stateTransition` call of `update(ev)` targets, `none` when
`update(ev)` makes no such call. -/
def Illustya.transitionTarget (i : Illustya) (ev : SDL_Event) : Option IllustyaState :=
  if ev.type = SDL_KEYDOWN ∧ i.state_manager_.activeState = IllustyaState.Normal then
    some IllustyaState.Hovered
  else if ev.type = SDL_KEYUP ∧ i.state_manager_.activeState = IllustyaState.Hovered then
    some IllustyaState.Normal
  else
    none

/-- The calls `update(ev)` for the events of `evs` in turn: the object after the last
call and the outcomes, first call first. -/
def Illustya.updates (i : Illustya) :
    List SDL_Event → Illustya × List (Except TruffleException Unit)
  | [] => (i, [])
  | ev :: evs =>
    let r := i.update ev
    let rs := Illustya.updates r.1 evs
    (rs.1, r.2 :: rs.2)

/-- The state of `Illustya` that is not `state`. -/
def IllustyaState.other : IllustyaState → IllustyaState
  | .Normal => .Hovered
  | .Hovered => .Normal

/-- The two instances are bound, the two edges are declared, and the render flag is on
for the instance of the active state only. -/
def Illustya.Consistent (i : Illustya) : Prop :=
  ∃ home top, i.state_manager_.objects_
      = [(IllustyaState.Normal, home), (IllustyaState.Hovered, top)] ∧
    i.state_manager_.transitions_
      = [(IllustyaState.Normal, IllustyaState.Hovered),
          (IllustyaState.Hovered, IllustyaState.Normal)] ∧
    home.render_enabled = decide (i.state_manager_.active_ = IllustyaState.Normal) ∧
    top.render_enabled = decide (i.state_manager_.active_ = IllustyaState.Hovered)

/-! ## Counter (`src/main.cpp`) -/

/-- The exceptions that `std::stoi` throws. -/
inductive StoiError where
  | invalid_argument
  | out_of_range
deriving DecidableEq, Repr

/-- The C library function `isspace` in the default locale: space, and the control
characters from tab to carriage return. -/
def isspace (c : Char) : Bool :=
  c.toNat = 32 || (9 ≤ c.toNat && c.toNat ≤ 13)

/-- The number a run of decimal digits stands for, most significant digit first. -/
def digitsValue (cs : List Char) : Nat :=
  cs.foldl (fun acc c => acc * 10 + (c.toNat - 48)) 0

/-- The library function `std::stoi(str)` in base 10: leading white space is skipped, an
optional sign is read, then the longest run of digits; no digit throws
`std::invalid_argument`, a value outside `int` throws `std::out_of_range`. -/
def stoi (str : String) : Except StoiError Int :=
  let cs := str.data.dropWhile isspace
  let signed : Bool × List Char :=
    match cs with
    | [] => (false, cs)
    | c :: rest =>
      if c = '-' then (true, rest) else if c = '+' then (false, rest) else (false, cs)
  let digits := signed.2.takeWhile Char.isDigit
  if digits = [] then
    .error .invalid_argument
  else
    let value : Int := if signed.1 then -(digitsValue digits : Int) else (digitsValue digits : Int)
    if value < -2147483648 ∨ 2147483647 < value then .error .out_of_range else .ok value

/-- The library function `std::to_string(int)`: the decimal form of the value. -/
def to_string (value : Int) : String :=
  match value with
  | .ofNat n => String.mk (Nat.toDigits 10 n)
  | .negSucc n => String.mk ('-' :: Nat.toDigits 10 (n + 1))

/-- The statement `++current_num` on an `int`: the value after the increment, which past
`INT_MAX`, where C++ leaves the result undefined, is taken in two's complement. -/
def preIncrement (current_num : Int) : Int :=
  (current_num + 1 + 2147483648) % 4294967296 - 2147483648

/-- The class `Counter`: `base` is its base subobject, the controller that holds the
queue pointer, and `current_text_` its text; the member `texture_` belongs to the
rendering side and stays outside. -/
structure Counter where
  base : TruffleController
  current_text_ : String
deriving DecidableEq, Repr

/-- The state of a `Counter` after its constructor, given the base subobject after the
constructor of the base class: the default member initialiser sets the text to `"0"`. -/
def Counter.new (base : TruffleController) : Counter :=
  { base := base, current_text_ := "0" }

/-- The method `Counter::update`, with `recvMessage` as in `object_tree.h` (the call to
`loadBlendTexture` acts on the texture only).  The result is `none` when the assertion
of `recvMessage` fails; otherwise the counter and the heap after the call and whether
the call returned or `std::stoi` threw. -/
def Counter.update (k : Counter) (heap : QueueHeap) (_ev : SDL_Event) :
    Option (Counter × QueueHeap × Except StoiError Unit) :=
  match k.base.recvMessage heap with
  | none => none
  | some (message, heap1) =>
    match message with
    | none => some (k, heap1, .ok ())
    | some _ =>
      match stoi k.current_text_ with
      | .error e => some (k, heap1, .error e)
      | .ok current_num =>
        some ({ k with current_text_ := to_string (preIncrement current_num) }, heap1, .ok ())

/-- A call in the life of a `Counter`: a message sent to its name through a scene, or a
frame's `update(ev)`. -/
inductive CounterCall where
  | send (sender : TruffleScene) (message : Message)
  | update (ev : SDL_Event)
deriving DecidableEq, Repr

/-- The number of `update` calls among `calls`. -/
def updateCount : List CounterCall → Nat
  | [] => 0
  | .send _ _ :: calls => updateCount calls
  | .update _ :: calls => updateCount calls + 1

/-- The counter, heap and bus after the calls of `calls`, in turn, and the number of
messages that the `update` calls received; `none` when an assertion fails. -/
def Counter.run (k : Counter) :
    List CounterCall → QueueHeap → EventMessageBus →
      Option (Counter × QueueHeap × EventMessageBus × Nat)
  | [], heap, bus => some (k, heap, bus, 0)
  | .send sender m :: calls, heap, bus =>
    let r := sender.sendMessage heap bus k.base.name_ m
    Counter.run k calls r.1 r.2.1
  | .update ev :: calls, heap, bus =>
    match k.base.recvMessage heap, k.update heap ev with
    | some (message, _), some (k1, heap1, _) =>
      match Counter.run k1 calls heap1 bus with
      | some (k2, heap2, bus2, received) =>
        some (k2, heap2, bus2, received + (if message.isSome then 1 else 0))
      | none => none
    | _, _ => none

/-! ## Lemmas on the map operations -/

theorem mapFind_mem {β : Type} (m : List (String × β)) (k : String) (v : β)
    (h : mapFind m k = some v) : (k, v) ∈ m := by
  induction m with
  | nil => simp [mapFind] at h
  | cons e rest ih =>
    obtain ⟨k', v'⟩ := e
    by_cases hk : k' = k
    · simp [mapFind, hk] at h
      simp [hk, h]
    · simp [mapFind, hk] at h
      exact List.mem_cons_of_mem _ (ih h)

theorem mapFind_append {β : Type} (m n : List (String × β)) (k : String) :
    mapFind (m ++ n) k = (mapFind m k).or (mapFind n k) := by
  induction m with
  | nil => simp [mapFind]
  | cons e rest ih =>
    obtain ⟨k', v'⟩ := e
    by_cases hk : k' = k <;> simp [mapFind, hk, ih]

theorem mapIndex_of_find {β : Type} (m : List (String × β)) (k : String) (v dflt : β)
    (h : mapFind m k = some v) : mapIndex m k dflt = (m, v) := by
  simp [mapIndex, h]

theorem mapFind_mapAssign {β : Type} (m : List (String × β)) (k k' : String) (v : β) :
    mapFind (mapAssign m k v) k' =
      if k = k' ∧ (mapFind m k).isSome then some v else mapFind m k' := by
  induction m with
  | nil => simp [mapAssign, mapFind]
  | cons e rest ih =>
    obtain ⟨k0, v0⟩ := e
    by_cases h0 : k0 = k
    · subst h0
      by_cases h1 : k0 = k' <;> simp [mapAssign, mapFind, h1]
    · by_cases h1 : k0 = k'
      · subst h1
        have h2 : ¬ k = k0 := fun h => h0 h.symm
        simp [mapAssign, mapFind, h0, h2]
      · simp [mapAssign, mapFind, h0, h1, ih]

theorem mem_mapAssign {β : Type} (m : List (String × β)) (k : String) (v : β)
    (e : String × β) (h : e ∈ mapAssign m k v) : e ∈ m ∨ e = (k, v) := by
  induction m with
  | nil => simp [mapAssign] at h
  | cons e0 rest ih =>
    obtain ⟨k0, v0⟩ := e0
    by_cases h0 : k0 = k
    · subst h0
      simp [mapAssign] at h
      rcases h with h | h
      · exact Or.inr h
      · exact Or.inl (List.mem_cons_of_mem _ h)
    · simp [mapAssign, h0] at h
      rcases h with h | h
      · exact Or.inl (by simp [h])
      · rcases ih h with h' | h'
        · exact Or.inl (List.mem_cons_of_mem _ h')
        · exact Or.inr h'

/-! ## Lemmas on the actor table -/

theorem ActorTable.lookup_fst (t : ActorTable) (a : Address) : (t.lookup_ a).1 = t := by
  unfold ActorTable.lookup_
  cases h : mapFind t.table_ a.controller with
  | none => simp
  | some b =>
    simp only [Option.isNone_some, Bool.false_eq_true, if_false, mapIndex_of_find _ _ _ _ h]
    cases b.find? (fun actor => actor.name == a.object) <;> rfl

theorem ActorTable.lookup_snd (t : ActorTable) (a : Address) :
    (t.lookup_ a).2 =
      (t.bucket a.controller).bind (fun b => b.find? (fun actor => actor.name == a.object)) := by
  unfold ActorTable.lookup_ ActorTable.bucket
  cases h : mapFind t.table_ a.controller with
  | none => simp
  | some b =>
    simp only [Option.isNone_some, Bool.false_eq_true, if_false, mapIndex_of_find _ _ _ _ h,
      Option.some_bind]
    cases b.find? (fun actor => actor.name == a.object) <;> rfl

theorem ActorTable.add_of_absent (t : ActorTable) (a : Address) (actor : Actor)
    (h : t.bucket a.controller = none) :
    t.add_ a actor = ⟨t.table_ ++ [(a.controller, [actor])]⟩ := by
  unfold ActorTable.bucket at h
  simp [ActorTable.add_, mapEmplace, h]

theorem ActorTable.add_of_present (t : ActorTable) (a : Address) (actor : Actor)
    (b : List ActorRef) (h : t.bucket a.controller = some b)
    (hb : b.any (fun x => x.name == a.object) = true) : t.add_ a actor = t := by
  unfold ActorTable.bucket at h
  unfold ActorTable.add_
  simp only [h, Option.isNone_some, Bool.false_eq_true, if_false, mapIndex_of_find _ _ _ _ h,
    hb, if_true]

theorem ActorTable.add_of_missing (t : ActorTable) (a : Address) (actor : Actor)
    (b : List ActorRef) (h : t.bucket a.controller = some b)
    (hb : b.any (fun x => x.name == a.object) = false) :
    t.add_ a actor = ⟨mapAssign t.table_ a.controller (b ++ [actor])⟩ := by
  unfold ActorTable.bucket at h
  unfold ActorTable.add_
  simp only [h, Option.isNone_some, Bool.false_eq_true, if_false, mapIndex_of_find _ _ _ _ h,
    hb]

/-- After `add_(a, actor)` with an actor named `a.object`, the bucket of `a.controller`
exists and holds an entry named `a.object`. -/
theorem ActorTable.add_has_name (t : ActorTable) (a : Address) (actor : Actor)
    (hn : actor.name = a.object) :
    ∃ b, (t.add_ a actor).bucket a.controller = some b ∧
      b.any (fun x => x.name == a.object) = true := by
  cases h : t.bucket a.controller with
  | none =>
    refine ⟨[actor], ?_, by simp [hn]⟩
    rw [ActorTable.add_of_absent t a actor h]
    unfold ActorTable.bucket at h ⊢
    simp [mapFind_append, h, mapFind]
  | some b =>
    cases hb : b.any (fun x => x.name == a.object) with
    | true =>
      refine ⟨b, ?_, hb⟩
      rw [ActorTable.add_of_present t a actor b h hb]
      exact h
    | false =>
      refine ⟨b ++ [actor], ?_, by simp [hn]⟩
      rw [ActorTable.add_of_missing t a actor b h hb]
      unfold ActorTable.bucket at h ⊢
      simp [mapFind_mapAssign, h]

/-- The result of `lookup_` after `add_(a, actor)` with an actor named `a.object`. -/
theorem ActorTable.lookup_add_self (t : ActorTable) (a : Address) (actor : Actor)
    (hn : actor.name = a.object) :
    ((t.add_ a actor).lookup_ a).2 =
      match (t.lookup_ a).2 with
      | some first => some first
      | none => some actor := by
  rw [ActorTable.lookup_snd, ActorTable.lookup_snd]
  cases h : t.bucket a.controller with
  | none =>
    rw [ActorTable.add_of_absent t a actor h]
    unfold ActorTable.bucket at h ⊢
    simp [mapFind_append, h, mapFind, hn]
  | some b =>
    cases hb : b.any (fun x => x.name == a.object) with
    | true =>
      rw [ActorTable.add_of_present t a actor b h hb, h]
      simp only [Option.some_bind]
      cases hf : b.find? (fun actor => actor.name == a.object) with
      | some first => rfl
      | none =>
        rw [List.find?_eq_none] at hf
        rw [List.any_eq_true] at hb
        obtain ⟨x, hx, hpx⟩ := hb
        exact absurd hpx (hf x hx)
    | false =>
      rw [ActorTable.add_of_missing t a actor b h hb]
      have hf : b.find? (fun actor => actor.name == a.object) = none := by
        rw [List.find?_eq_none]
        rw [List.any_eq_false] at hb
        exact hb
      unfold ActorTable.bucket at h ⊢
      simp [mapFind_mapAssign, h, hf, hn]

/-- One `add_` call with an actor named as its address keeps bucket names unique. -/
theorem ActorTable.add_uniqueNames (t : ActorTable) (a : Address) (actor : Actor)
    (hn : actor.name = a.object) (ht : t.UniqueNames) : (t.add_ a actor).UniqueNames := by
  cases h : t.bucket a.controller with
  | none =>
    rw [ActorTable.add_of_absent t a actor h]
    intro entry he
    simp only [List.mem_append, List.mem_singleton] at he
    rcases he with he | he
    · exact ht entry he
    · subst he
      simp
  | some b =>
    cases hb : b.any (fun x => x.name == a.object) with
    | true =>
      rw [ActorTable.add_of_present t a actor b h hb]
      exact ht
    | false =>
      rw [ActorTable.add_of_missing t a actor b h hb]
      intro entry he
      rcases mem_mapAssign _ _ _ _ he with he | he
      · exact ht entry he
      · subst he
        have hb0 := ht (a.controller, b) (mapFind_mem _ _ _ h)
        rw [List.any_eq_false] at hb
        simp only [List.map_append, List.map_cons, List.map_nil]
        refine List.Nodup.append hb0 (List.nodup_singleton _) ?_
        intro nm h1 h2
        simp only [List.mem_singleton] at h2
        subst h2
        simp only [List.mem_map] at h1
        obtain ⟨x, hx, hxn⟩ := h1
        exact hb x hx (by simp [hxn, hn])

theorem ActorTable.add_avoids (t : ActorTable) (a a0 : Address) (actor : Actor)
    (hn : actor.name = a0.object) (hne : a0 ≠ a) (ht : t.Avoids a) :
    (t.add_ a0 actor).Avoids a := by
  have hnew : (⟨a0.controller, actor.name⟩ : Address) ≠ a := by
    rw [hn]
    exact hne
  cases h : t.bucket a0.controller with
  | none =>
    rw [ActorTable.add_of_absent t a0 actor h]
    intro entry he x hx
    simp only [List.mem_append, List.mem_singleton] at he
    rcases he with he | he
    · exact ht entry he x hx
    · subst he
      simp only [List.mem_singleton] at hx
      subst hx
      exact hnew
  | some b =>
    cases hb : b.any (fun x => x.name == a0.object) with
    | true =>
      rw [ActorTable.add_of_present t a0 actor b h hb]
      exact ht
    | false =>
      rw [ActorTable.add_of_missing t a0 actor b h hb]
      intro entry he x hx
      rcases mem_mapAssign _ _ _ _ he with he | he
      · exact ht entry he x hx
      · subst he
        simp only [List.mem_append, List.mem_singleton] at hx
        rcases hx with hx | hx
        · exact ht (a0.controller, b) (mapFind_mem _ _ _ h) x hx
        · subst hx
          exact hnew

theorem ActorTable.addAll_uniqueNames (calls : List (Address × Actor)) (t : ActorTable)
    (hc : SelfNamed calls) (ht : t.UniqueNames) : (t.addAll calls).UniqueNames := by
  induction calls generalizing t with
  | nil => exact ht
  | cons call rest ih =>
    have h1 : call.2.name = call.1.object := hc call (List.mem_cons_self _ _)
    have h2 : SelfNamed rest := fun c hcm => hc c (List.mem_cons_of_mem _ hcm)
    exact ih (t.add_ call.1 call.2) h2 (ActorTable.add_uniqueNames t call.1 call.2 h1 ht)

theorem ActorTable.addAll_avoids (calls : List (Address × Actor)) (t : ActorTable)
    (a : Address) (hc : SelfNamed calls) (hne : ∀ call ∈ calls, call.1 ≠ a)
    (ht : t.Avoids a) : (t.addAll calls).Avoids a := by
  induction calls generalizing t with
  | nil => exact ht
  | cons call rest ih =>
    have h1 : call.2.name = call.1.object := hc call (List.mem_cons_self _ _)
    have h2 : SelfNamed rest := fun c hcm => hc c (List.mem_cons_of_mem _ hcm)
    have h3 : ∀ c ∈ rest, c.1 ≠ a := fun c hcm => hne c (List.mem_cons_of_mem _ hcm)
    exact ih (t.add_ call.1 call.2) h2 h3
      (ActorTable.add_avoids t a call.1 call.2 h1 (hne call (List.mem_cons_self _ _)) ht)

/-! ## The actor table: claims -/

/-- C1: `lookup_` returns empty exactly when the table has no bucket for
`address.controller` or no entry of that bucket is named `address.object`; a returned
reference is the first entry of the bucket, in insertion order, that is named
`address.object`. -/
theorem C1_lookup_contract (t : ActorTable) (address : Address) :
    ((t.lookup_ address).2 = none ↔
      (t.bucket address.controller = none ∨
        ∃ b, t.bucket address.controller = some b ∧ ∀ e ∈ b, e.name ≠ address.object)) ∧
    (∀ r, (t.lookup_ address).2 = some r →
      ∃ pre post, t.bucket address.controller = some (pre ++ r :: post) ∧
        r.name = address.object ∧ ∀ e ∈ pre, e.name ≠ address.object) := by
  rw [ActorTable.lookup_snd]
  cases h : t.bucket address.controller with
  | none => simp
  | some b =>
    constructor
    · simp
    · intro r hr
      simp only [Option.some_bind] at hr
      rw [List.find?_eq_some] at hr
      obtain ⟨hp, pre, post, hb, hpre⟩ := hr
      refine ⟨pre, post, by rw [hb], by simpa using hp, ?_⟩
      intro e he
      simpa using hpre e he

/-- C1 at a bucket with two entries named `y`: the one inserted first is returned. -/
theorem C1_lookup_contract_witness :
    ∃ pre post,
      (⟨[("c", [⟨0, "x"⟩, ⟨1, "y"⟩, ⟨2, "y"⟩])]⟩ : ActorTable).bucket
          (⟨"c", "y"⟩ : Address).controller = some (pre ++ ⟨1, "y"⟩ :: post) ∧
        (⟨1, "y"⟩ : Actor).name = (⟨"c", "y"⟩ : Address).object ∧
        ∀ e ∈ pre, e.name ≠ (⟨"c", "y"⟩ : Address).object :=
  (C1_lookup_contract ⟨[("c", [⟨0, "x"⟩, ⟨1, "y"⟩, ⟨2, "y"⟩])]⟩ ⟨"c", "y"⟩).2 ⟨1, "y"⟩
    (by decide)

/-- C2, as stated, fails: with an actor not named as the address, the second `add_`
appends, and `lookup_` returns the reference registered second. -/
theorem C2_counterexample :
    (ActorTable.empty.add_ ⟨"c", "x"⟩ ⟨0, "y"⟩).add_ ⟨"c", "x"⟩ ⟨1, "x"⟩
        ≠ ActorTable.empty.add_ ⟨"c", "x"⟩ ⟨0, "y"⟩ ∧
      (((ActorTable.empty.add_ ⟨"c", "x"⟩ ⟨0, "y"⟩).add_ ⟨"c", "x"⟩ ⟨1, "x"⟩).lookup_
        ⟨"c", "x"⟩).2 = some ⟨1, "x"⟩ := by
  decide

/-- C2, amended: when `ref` is named `a.object`, `add_(a, ref)` followed by
`add_(a, ref2)` leaves the table as it was after the first call, and `lookup_(a)`
afterwards returns the entry that `lookup_(a)` found before the two calls, or `ref`
when it found none. -/
theorem C2_add_twice (t : ActorTable) (a : Address) (ref ref2 : Actor)
    (hn : ref.name = a.object) :
    (t.add_ a ref).add_ a ref2 = t.add_ a ref ∧
      (((t.add_ a ref).add_ a ref2).lookup_ a).2 =
        match (t.lookup_ a).2 with
        | some first => some first
        | none => some ref := by
  obtain ⟨b, hb, hany⟩ := ActorTable.add_has_name t a ref hn
  have h1 : (t.add_ a ref).add_ a ref2 = t.add_ a ref :=
    ActorTable.add_of_present (t.add_ a ref) a ref2 b hb hany
  exact ⟨h1, by rw [h1]; exact ActorTable.lookup_add_self t a ref hn⟩

/-- C2, amended, at the empty table with two actors named `x` added under `(c, x)`. -/
theorem C2_add_twice_witness :
    (⟨0, "x"⟩ : Actor).name = (⟨"c", "x"⟩ : Address).object ∧
      ((ActorTable.empty.add_ ⟨"c", "x"⟩ ⟨0, "x"⟩).add_ ⟨"c", "x"⟩ ⟨1, "x"⟩
          = ActorTable.empty.add_ ⟨"c", "x"⟩ ⟨0, "x"⟩ ∧
        (((ActorTable.empty.add_ ⟨"c", "x"⟩ ⟨0, "x"⟩).add_ ⟨"c", "x"⟩ ⟨1, "x"⟩).lookup_
            ⟨"c", "x"⟩).2 =
          match (ActorTable.empty.lookup_ ⟨"c", "x"⟩).2 with
          | some first => some first
          | none => some ⟨0, "x"⟩) :=
  ⟨by decide, C2_add_twice ActorTable.empty ⟨"c", "x"⟩ ⟨0, "x"⟩ ⟨1, "x"⟩ (by decide)⟩

/-- C3, as stated, fails: two `add_` calls under different object names with actors
that share a name leave two entries of that name in one bucket. -/
theorem C3_counterexample :
    ¬ (ActorTable.empty.addAll
        [(⟨"c", "x"⟩, ⟨0, "y"⟩), (⟨"c", "z"⟩, ⟨1, "y"⟩)]).UniqueNames := by
  unfold ActorTable.UniqueNames
  decide

/-- C3, amended: in every table reached from the empty table by `add_` calls that each
register an actor under its own name, no bucket holds two entries with equal names. -/
theorem C3_unique_names (calls : List (Address × Actor)) (hc : SelfNamed calls) :
    (ActorTable.empty.addAll calls).UniqueNames :=
  ActorTable.addAll_uniqueNames calls ActorTable.empty hc
    (fun _ he => by simp [ActorTable.empty] at he)

/-- C3, amended, at three calls that each file an actor under its own name. -/
theorem C3_unique_names_witness :
    SelfNamed [(⟨"c", "x"⟩, ⟨0, "x"⟩), (⟨"c", "x"⟩, ⟨1, "x"⟩), (⟨"c", "y"⟩, ⟨2, "y"⟩)] ∧
      (ActorTable.empty.addAll
        [(⟨"c", "x"⟩, ⟨0, "x"⟩), (⟨"c", "x"⟩, ⟨1, "x"⟩), (⟨"c", "y"⟩, ⟨2, "y"⟩)]).UniqueNames :=
  ⟨by unfold SelfNamed; decide,
    C3_unique_names [(⟨"c", "x"⟩, ⟨0, "x"⟩), (⟨"c", "x"⟩, ⟨1, "x"⟩), (⟨"c", "y"⟩, ⟨2, "y"⟩)]
      (by unfold SelfNamed; decide)⟩

/-- C4, as stated, fails: an actor named `x` added under the address `(c, y)` is found
by `lookup_` at `(c, x)`, an address no `add_` call was made with. -/
theorem C4_counterexample :
    (∀ call ∈ [((⟨"c", "y"⟩ : Address), (⟨0, "x"⟩ : Actor))], call.1 ≠ ⟨"c", "x"⟩) ∧
      ((ActorTable.empty.addAll [(⟨"c", "y"⟩, ⟨0, "x"⟩)]).lookup_ ⟨"c", "x"⟩).2
        = some ⟨0, "x"⟩ := by
  decide

/-- C4, amended: for a table reached from the empty table by `add_` calls that each
register an actor under its own name, none of them made with address `a`, `lookup_(a)`
returns empty. -/
theorem C4_lookup_before_add (calls : List (Address × Actor)) (a : Address)
    (hc : SelfNamed calls) (hne : ∀ call ∈ calls, call.1 ≠ a) :
    ((ActorTable.empty.addAll calls).lookup_ a).2 = none := by
  have hav : (ActorTable.empty.addAll calls).Avoids a :=
    ActorTable.addAll_avoids calls ActorTable.empty a hc hne
      (fun _ he => by simp [ActorTable.empty] at he)
  rw [ActorTable.lookup_snd]
  cases h : (ActorTable.empty.addAll calls).bucket a.controller with
  | none => rfl
  | some b =>
    simp only [Option.some_bind, List.find?_eq_none]
    intro x hx hpx
    have hname : x.name = a.object := by simpa using hpx
    exact hav (a.controller, b) (mapFind_mem _ _ _ h) x hx (by rw [hname])

/-- C4, amended, at two calls made with addresses other than `(c, x)`. -/
theorem C4_lookup_before_add_witness :
    SelfNamed [(⟨"c", "y"⟩, ⟨0, "y"⟩), (⟨"d", "x"⟩, ⟨1, "x"⟩)] ∧
      (∀ call ∈ [((⟨"c", "y"⟩ : Address), (⟨0, "y"⟩ : Actor)), (⟨"d", "x"⟩, ⟨1, "x"⟩)],
        call.1 ≠ ⟨"c", "x"⟩) ∧
      ((ActorTable.empty.addAll [(⟨"c", "y"⟩, ⟨0, "y"⟩), (⟨"d", "x"⟩, ⟨1, "x"⟩)]).lookup_
        ⟨"c", "x"⟩).2 = none :=
  ⟨by unfold SelfNamed; decide, by decide,
    C4_lookup_before_add [(⟨"c", "y"⟩, ⟨0, "y"⟩), (⟨"d", "x"⟩, ⟨1, "x"⟩)] ⟨"c", "x"⟩
      (by unfold SelfNamed; decide) (by decide)⟩

/-! ## Scene, controller, queues: lemmas -/

theorem mapFind_emplace_new {β : Type} (m : List (String × β)) (k k' : String) (v : β)
    (h : mapFind m k = none) :
    mapEmplace m k v = m ++ [(k, v)] ∧
      mapFind (mapEmplace m k v) k' = if k' = k then some v else mapFind m k' := by
  have h1 : mapEmplace m k v = m ++ [(k, v)] := by simp [mapEmplace, h]
  refine ⟨h1, ?_⟩
  rw [h1, mapFind_append]
  by_cases hk : k' = k
  · subst hk
    simp [h, mapFind]
  · have hk2 : ¬ k = k' := fun e => hk e.symm
    simp [mapFind, hk, hk2]

theorem TruffleScene.setController_taken (s : TruffleScene) (heap : QueueHeap)
    (bus : EventMessageBus) (b : TruffleController) (r : Nat)
    (h : mapFind s.controllers_ b.name_ = some r) :
    s.setController heap bus b =
      { scene := s, heap := heap, bus := bus, controller := b,
        outcome := .error ⟨"controller " ++ b.name_ ++ " had already registered"⟩ } := by
  simp [TruffleScene.setController, h]

theorem TruffleScene.setController_free (s : TruffleScene) (heap : QueueHeap)
    (bus : EventMessageBus) (b : TruffleController)
    (h : mapFind s.controllers_ b.name_ = none) :
    s.setController heap bus b =
      { scene := { s with controllers_ := s.controllers_ ++ [(b.name_, b.addr)] },
        heap := (bus.getMessageQueue heap b.name_).1,
        bus := (bus.getMessageQueue heap b.name_).2.1,
        controller := { b with message_queue_ := some (bus.getMessageQueue heap b.name_).2.2 },
        outcome := .ok () } := by
  simp [TruffleScene.setController, h, TruffleController.setMessageQueue, mapEmplace]

/-- After `getMessageQueue(name)` the bus maps `name` to the returned queue. -/
theorem EventMessageBus.getMessageQueue_find (bus : EventMessageBus) (heap : QueueHeap)
    (name : String) :
    mapFind (bus.getMessageQueue heap name).2.1.queues_ name
      = some (bus.getMessageQueue heap name).2.2 := by
  unfold EventMessageBus.getMessageQueue
  cases h : mapFind bus.queues_ name with
  | some p => simp [h]
  | none => simp [mapFind_append, h, mapFind]

/-- A name that has a queue keeps that queue over `getMessageQueue`. -/
theorem EventMessageBus.getMessageQueue_keeps (bus : EventMessageBus) (heap : QueueHeap)
    (name c : String) (p : QueuePtr) (h : mapFind bus.queues_ c = some p) :
    mapFind (bus.getMessageQueue heap name).2.1.queues_ c = some p := by
  unfold EventMessageBus.getMessageQueue
  cases h1 : mapFind bus.queues_ name with
  | some q => simpa using h
  | none => simp [mapFind_append, h]

theorem EventMessageBus.sendMessage_bus (bus : EventMessageBus) (heap : QueueHeap)
    (name : String) (m : Message) : (bus.sendMessage heap name m).2.1 = bus := by
  unfold EventMessageBus.sendMessage
  cases mapFind bus.queues_ name <;> rfl

theorem set_same_of_getElem? {α : Type} (l : List α) (i : Nat) (a : α)
    (h : l[i]? = some a) : l.set i a = l := by
  induction l generalizing i with
  | nil => rfl
  | cons x xs ih =>
    cases i with
    | zero =>
      simp at h
      simp [h]
    | succ j =>
      simp at h
      simp [ih j h]

theorem getElem?_lt_length {α : Type} (l : List α) (i : Nat) (a : α)
    (h : l[i]? = some a) : i < l.length := by
  rcases Nat.lt_or_ge i l.length with h1 | h1
  · exact h1
  · rw [List.getElem?_eq_none h1] at h
    simp at h

/-- A send to a name whose queue is `q` at address `p` appends the message to `q`. -/
theorem TruffleScene.sendMessage_queued (s : TruffleScene) (heap : QueueHeap)
    (bus : EventMessageBus) (name : String) (m : Message) (p : QueuePtr) (q : List Message)
    (hb : mapFind bus.queues_ name = some p) (hq : heap[p]? = some q) :
    s.sendMessage heap bus name m = (heap.set p (q ++ [m]), bus, .ok true) := by
  simp [TruffleScene.sendMessage, EventMessageBus.sendMessage, hb, QueueHeap.push, hq]

theorem sendAll_queued (s : TruffleScene) (name : String) (ms : List Message)
    (heap : QueueHeap) (bus : EventMessageBus) (p : QueuePtr) (q : List Message)
    (hb : mapFind bus.queues_ name = some p) (hq : heap[p]? = some q) :
    sendAll s name ms heap bus
      = (heap.set p (q ++ ms), bus, ms.map (fun _ => Except.ok true)) := by
  induction ms generalizing heap q with
  | nil => simp [sendAll, set_same_of_getElem? heap p q hq]
  | cons m rest ih =>
    have hlt := getElem?_lt_length heap p q hq
    have h1 : (heap.set p (q ++ [m]))[p]? = some (q ++ [m]) := List.getElem?_set_self hlt
    simp only [sendAll, TruffleScene.sendMessage_queued s heap bus name m p q hb hq,
      ih (heap.set p (q ++ [m])) (q ++ [m]) h1, List.set_set, List.append_assoc,
      List.singleton_append, List.map_cons]

theorem recvMany_queued (c : TruffleController) (heap : QueueHeap) (p : QueuePtr)
    (q : List Message) (hc : c.message_queue_ = some p) (hq : heap[p]? = some q) :
    recvMany c (q.length + 1) heap = some (q.map some ++ [none], heap.set p []) := by
  induction q generalizing heap with
  | nil =>
    simp [recvMany, TruffleController.recvMessage, hc, hq, set_same_of_getElem? heap p [] hq]
  | cons m rest ih =>
    have hlt := getElem?_lt_length heap p _ hq
    have h1 : (heap.set p rest)[p]? = some rest := List.getElem?_set_self hlt
    have h2 : c.recvMessage heap = some (some m, heap.set p rest) := by
      simp [TruffleController.recvMessage, hc, hq]
    rw [List.length_cons, recvMany, h2]
    simp only [ih (heap.set p rest) h1, List.set_set, List.map_cons, List.cons_append]

/-- A successful registration leaves the controller with the queue that the bus keeps
under the controller's name. -/
theorem TruffleScene.setController_registered (s : TruffleScene) (heap : QueueHeap)
    (bus : EventMessageBus) (b : TruffleController)
    (hok : (s.setController heap bus b).outcome = .ok ()) :
    ∃ p, (s.setController heap bus b).controller.message_queue_ = some p ∧
      mapFind (s.setController heap bus b).bus.queues_ b.name_ = some p := by
  cases h : mapFind s.controllers_ b.name_ with
  | some r =>
    rw [TruffleScene.setController_taken s heap bus b r h] at hok
    simp at hok
  | none =>
    rw [TruffleScene.setController_free s heap bus b h]
    exact ⟨_, rfl, EventMessageBus.getMessageQueue_find bus heap b.name_⟩

/-- A name that has a queue keeps it over every later call. -/
theorem runQueueCalls_keeps (calls : List QueueCall) (heap : QueueHeap)
    (bus : EventMessageBus) (c : String) (p : QueuePtr)
    (h : mapFind bus.queues_ c = some p) :
    mapFind (runQueueCalls calls heap bus).2.queues_ c = some p := by
  induction calls generalizing heap bus with
  | nil => exact h
  | cons call rest ih =>
    cases call with
    | send s dst m =>
      simp only [runQueueCalls]
      apply ih
      simp only [TruffleScene.sendMessage, EventMessageBus.sendMessage_bus]
      exact h
    | register s b =>
      simp only [runQueueCalls]
      apply ih
      cases hb : mapFind s.controllers_ b.name_ with
      | some r =>
        rw [TruffleScene.setController_taken s heap bus b r hb]
        exact h
      | none =>
        rw [TruffleScene.setController_free s heap bus b hb]
        exact EventMessageBus.getMessageQueue_keeps bus heap b.name_ c p h
    | recv ctl =>
      simp only [runQueueCalls]
      cases ctl.recvMessage heap with
      | none => exact ih heap bus h
      | some r => exact ih r.2 bus h

/-! ## Scene, controller, queues: claims -/

/-- C5: `setController`, and with it the constructor of `TruffleController`, throws
exactly when the scene already maps the controller's name; the heap and the bus, which
is all that registrations in other scenes change, play no part in that; the same name
registers in two different scenes one after the other; on success the scene's map is
the old map with one new entry under that name. -/
theorem C5_setController_duplicate (s : TruffleScene) (heap : QueueHeap)
    (bus : EventMessageBus) (b : TruffleController) :
    (Raised (s.setController heap bus b).outcome ↔
      ∃ r, mapFind s.controllers_ b.name_ = some r) ∧
    (∀ addr name, Raised (TruffleController.new addr s heap bus name).outcome ↔
      ∃ r, mapFind s.controllers_ name = some r) ∧
    ((s.setController heap bus b).outcome = .ok () →
      (s.setController heap bus b).scene.controllers_ = s.controllers_ ++ [(b.name_, b.addr)] ∧
      (s.setController heap bus b).scene.name_ = s.name_ ∧
      ∀ k, mapFind (s.setController heap bus b).scene.controllers_ k =
        if k = b.name_ then some b.addr else mapFind s.controllers_ k) ∧
    (∀ (s2 : TruffleScene) (addr addr2 : Nat) (name : String),
      mapFind s.controllers_ name = none → mapFind s2.controllers_ name = none →
      (TruffleController.new addr s heap bus name).outcome = .ok () ∧
      (TruffleController.new addr2 s2 (TruffleController.new addr s heap bus name).heap
        (TruffleController.new addr s heap bus name).bus name).outcome = .ok ()) := by
  have key : ∀ (s : TruffleScene) (heap : QueueHeap) (bus : EventMessageBus)
      (b : TruffleController), Raised (s.setController heap bus b).outcome ↔
        ∃ r, mapFind s.controllers_ b.name_ = some r := by
    intro s heap bus b
    cases h : mapFind s.controllers_ b.name_ with
    | some r =>
      rw [TruffleScene.setController_taken s heap bus b r h]
      exact ⟨fun _ => ⟨r, rfl⟩, fun _ => ⟨_, rfl⟩⟩
    | none =>
      rw [TruffleScene.setController_free s heap bus b h]
      constructor
      · rintro ⟨e, he⟩
        simp at he
      · rintro ⟨r, hr⟩
        simp at hr
  have free : ∀ (s : TruffleScene) (heap : QueueHeap) (bus : EventMessageBus)
      (addr : Nat) (name : String), mapFind s.controllers_ name = none →
        (TruffleController.new addr s heap bus name).outcome = .ok () := by
    intro s heap bus addr name h
    unfold TruffleController.new
    rw [TruffleScene.setController_free _ _ _ _ h]
  refine ⟨key s heap bus b, ?_, ?_, ?_⟩
  · intro addr name
    exact key s heap bus _
  · intro hok
    cases h : mapFind s.controllers_ b.name_ with
    | some r =>
      rw [TruffleScene.setController_taken s heap bus b r h] at hok
      simp at hok
    | none =>
      rw [TruffleScene.setController_free s heap bus b h]
      refine ⟨rfl, rfl, ?_⟩
      intro k
      have h2 := (mapFind_emplace_new s.controllers_ b.name_ k b.addr h).2
      simpa [mapEmplace, h] using h2
  · intro s2 addr addr2 name h1 h2
    exact ⟨free s heap bus addr name h1, free s2 _ _ addr2 name h2⟩

/-- C5 at a scene that already holds `counter_behavior`: a second controller of that
name makes the constructor throw. -/
theorem C5_setController_duplicate_witness :
    Raised (TruffleController.new 8
      (TruffleController.new 7 (TruffleScene.new 1 "root_scene") [] ⟨[]⟩
        "counter_behavior").scene [[]] ⟨[("counter_behavior", 0)]⟩
      "counter_behavior").outcome :=
  ((C5_setController_duplicate
    (TruffleController.new 7 (TruffleScene.new 1 "root_scene") [] ⟨[]⟩ "counter_behavior").scene
    [[]] ⟨[("counter_behavior", 0)]⟩ ⟨8, 1, [], none, "counter_behavior"⟩).2.1 8
      "counter_behavior").mpr ⟨7, by decide⟩

/-- C6: `addObject` throws exactly when the controller already maps the object's
name; when it throws the controller is unchanged; when it returns, the object map is
the old map with one new entry under the object's name, every earlier entry is kept,
and no other member changes. -/
theorem C6_addObject_duplicate (c : TruffleController) (object : TruffleObject) :
    (Raised (c.addObject object).2 ↔ ∃ r, mapFind c.objects_ object.name_ = some r) ∧
    (Raised (c.addObject object).2 → (c.addObject object).1 = c) ∧
    ((c.addObject object).2 = .ok () →
      (c.addObject object).1 =
        { c with objects_ := c.objects_ ++ [(object.name_, object.addr)] } ∧
      ∀ k, mapFind (c.addObject object).1.objects_ k =
        if k = object.name_ then some object.addr else mapFind c.objects_ k) := by
  cases h : mapFind c.objects_ object.name_ with
  | some r =>
    have h1 : c.addObject object
        = (c, .error ⟨"Duplicated name object can't be registered"⟩) := by
      simp [TruffleController.addObject, h]
    rw [h1]
    refine ⟨⟨fun _ => ⟨r, rfl⟩, fun _ => ⟨_, rfl⟩⟩, fun _ => rfl, ?_⟩
    intro hok
    simp at hok
  | none =>
    have h1 : c.addObject object
        = ({ c with objects_ := c.objects_ ++ [(object.name_, object.addr)] }, .ok ()) := by
      simp [TruffleController.addObject, h, mapEmplace]
    rw [h1]
    refine ⟨⟨?_, ?_⟩, ?_, ?_⟩
    · rintro ⟨e, he⟩
      simp at he
    · rintro ⟨r, hr⟩
      simp at hr
    · rintro ⟨e, he⟩
      simp at he
    · intro _
      refine ⟨rfl, ?_⟩
      intro k
      have h2 := (mapFind_emplace_new c.objects_ object.name_ k object.addr h).2
      simpa [mapEmplace, h] using h2

/-- C6 at a controller that holds `image_button2`: adding an object of that name throws
and leaves the controller as it is. -/
theorem C6_addObject_duplicate_witness :
    ((⟨7, 1, [("image_button2", 3)], none, "counter_behavior"⟩ : TruffleController).addObject
      ⟨4, "image_button2"⟩).1 = ⟨7, 1, [("image_button2", 3)], none, "counter_behavior"⟩ :=
  (C6_addObject_duplicate ⟨7, 1, [("image_button2", 3)], none, "counter_behavior"⟩
    ⟨4, "image_button2"⟩).2.1
    ((C6_addObject_duplicate ⟨7, 1, [("image_button2", 3)], none, "counter_behavior"⟩
      ⟨4, "image_button2"⟩).1.mpr ⟨3, by decide⟩)

/-- C7: for a controller whose queue pointer is the address `p` of a queue `q`:
`recvMessage` on an empty `q` returns empty and leaves the heap as it is; on
`q = message :: rest` it returns `message`, leaves `rest` at `p`, and leaves every
other queue as it is. -/
theorem C7_recvMessage (c : TruffleController) (heap : QueueHeap) (p : QueuePtr)
    (q : List Message) (hp : c.message_queue_ = some p) (hq : heap[p]? = some q) :
    (q = [] → c.recvMessage heap = some (none, heap)) ∧
    (∀ message rest, q = message :: rest →
      ∃ heap1, c.recvMessage heap = some (some message, heap1) ∧
        heap1[p]? = some rest ∧ heap1.length = heap.length ∧
        ∀ p1, p1 ≠ p → heap1[p1]? = heap[p1]?) := by
  constructor
  · intro hnil
    subst hnil
    simp [TruffleController.recvMessage, hp, hq]
  · intro message rest hcons
    subst hcons
    refine ⟨heap.set p rest, by simp [TruffleController.recvMessage, hp, hq], ?_, by simp, ?_⟩
    · have hlt : p < heap.length := by
        rcases Nat.lt_or_ge p heap.length with h | h
        · exact h
        · rw [List.getElem?_eq_none h] at hq
          simp at hq
      exact List.getElem?_set_self hlt
    · intro p1 hne
      exact List.getElem?_set_ne (fun e => hne e.symm)

/-- C7 at a controller whose queue holds `m1` and `m2`. -/
theorem C7_recvMessage_witness :
    (⟨0, 0, [], some 0, "counter_behavior"⟩ : TruffleController).message_queue_ = some 0 ∧
      ([[⟨"m1"⟩, ⟨"m2"⟩]] : QueueHeap)[0]? = some [⟨"m1"⟩, ⟨"m2"⟩] ∧
      ∃ heap1, (⟨0, 0, [], some 0, "counter_behavior"⟩ : TruffleController).recvMessage
          [[⟨"m1"⟩, ⟨"m2"⟩]] = some (some ⟨"m1"⟩, heap1) ∧ heap1[0]? = some [⟨"m2"⟩] :=
  ⟨rfl, rfl,
    let ⟨heap1, h1, h2, _, _⟩ :=
      (C7_recvMessage ⟨0, 0, [], some 0, "counter_behavior"⟩ [[⟨"m1"⟩, ⟨"m2"⟩]] 0
        [⟨"m1"⟩, ⟨"m2"⟩] rfl rfl).2 ⟨"m1"⟩ [⟨"m2"⟩] rfl
    ⟨heap1, h1, h2⟩⟩

/-- C8: for a registered controller `c` (its queue pointer is the queue the bus keeps
under its name) whose queue is empty, after the messages `ms` are sent to `c`'s name
through `TruffleScene::sendMessage`, every send having returned true, the next
`ms.length + 1` calls of `c.recvMessage()` return the messages of `ms` in the order
sent and then empty, and the queue is empty again. -/
theorem C8_fifo (s : TruffleScene) (c : TruffleController) (heap : QueueHeap)
    (bus : EventMessageBus) (p : QueuePtr) (ms : List Message)
    (hreg : mapFind bus.queues_ c.name_ = some p) (hc : c.message_queue_ = some p)
    (hempty : heap[p]? = some []) :
    (sendAll s c.name_ ms heap bus).2.2 = ms.map (fun _ => Except.ok true) ∧
      recvMany c (ms.length + 1) (sendAll s c.name_ ms heap bus).1
        = some (ms.map some ++ [none], heap) := by
  rw [sendAll_queued s c.name_ ms heap bus p [] hreg hempty]
  refine ⟨rfl, ?_⟩
  have hlt := getElem?_lt_length heap p [] hempty
  have h1 : (heap.set p ([] ++ ms))[p]? = some ms := by
    simpa using List.getElem?_set_self hlt
  rw [recvMany_queued c (heap.set p ([] ++ ms)) p ms hc h1, List.set_set,
    set_same_of_getElem? heap p [] hempty]

/-- C8 at a controller built by its constructor in an empty process, with two messages
sent from another scene. -/
theorem C8_fifo_witness :
    recvMany (TruffleController.new 7 (TruffleScene.new 1 "root_scene") [] ⟨[]⟩
        "counter_behavior").controller 3
      (sendAll (TruffleScene.new 2 "other_scene") "counter_behavior" [⟨"m1"⟩, ⟨"m2"⟩]
        (TruffleController.new 7 (TruffleScene.new 1 "root_scene") [] ⟨[]⟩
          "counter_behavior").heap
        (TruffleController.new 7 (TruffleScene.new 1 "root_scene") [] ⟨[]⟩
          "counter_behavior").bus).1
      = some ([some ⟨"m1"⟩, some ⟨"m2"⟩, none], [[]]) :=
  (C8_fifo (TruffleScene.new 2 "other_scene")
    (TruffleController.new 7 (TruffleScene.new 1 "root_scene") [] ⟨[]⟩
      "counter_behavior").controller
    (TruffleController.new 7 (TruffleScene.new 1 "root_scene") [] ⟨[]⟩ "counter_behavior").heap
    (TruffleController.new 7 (TruffleScene.new 1 "root_scene") [] ⟨[]⟩ "counter_behavior").bus
    0 [⟨"m1"⟩, ⟨"m2"⟩] (by decide) (by decide) (by decide)).2

/-- C9: a send to a name for which the bus has no queue returns false, does not throw,
and leaves the heap of queues and the bus as they are; after a controller of that name
has registered, and after any later sends, registrations and receives, a send to the
name returns true. -/
theorem C9_sendMessage_unknown (s : TruffleScene) (heap : QueueHeap) (bus : EventMessageBus)
    (c : String) (m : Message) :
    (mapFind bus.queues_ c = none → s.sendMessage heap bus c m = (heap, bus, .ok false)) ∧
    (∀ (s0 : TruffleScene) (b : TruffleController) (calls : List QueueCall),
      b.name_ = c → (s0.setController heap bus b).outcome = .ok () →
      (s.sendMessage
        (runQueueCalls calls (s0.setController heap bus b).heap
          (s0.setController heap bus b).bus).1
        (runQueueCalls calls (s0.setController heap bus b).heap
          (s0.setController heap bus b).bus).2 c m).2.2 = .ok true) := by
  constructor
  · intro h
    simp [TruffleScene.sendMessage, EventMessageBus.sendMessage, h]
  · intro s0 b calls hname hok
    obtain ⟨p, _, hp⟩ := TruffleScene.setController_registered s0 heap bus b hok
    rw [hname] at hp
    have h1 := runQueueCalls_keeps calls (s0.setController heap bus b).heap
      (s0.setController heap bus b).bus c p hp
    simp [TruffleScene.sendMessage, EventMessageBus.sendMessage, h1]

/-- C9 at a bus without queues. -/
theorem C9_sendMessage_unknown_witness :
    (TruffleScene.new 1 "root_scene").sendMessage [] ⟨[]⟩ "counter_behavior" ⟨"message"⟩
      = ([], ⟨[]⟩, .ok false) :=
  (C9_sendMessage_unknown (TruffleScene.new 1 "root_scene") [] ⟨[]⟩ "counter_behavior"
    ⟨"message"⟩).1 (by decide)

/-- C10: on a bus without a queue for the destination, where the send fails,
`TruffleScene::sendMessage` returns false and throws nothing. -/
theorem C10_sendMessage_failure_returns :
    ((TruffleScene.new 1 "root_scene").sendMessage [] ⟨[]⟩ "counter_behavior"
        ⟨"message"⟩).2.2 = .ok false ∧
      ¬ Raised ((TruffleScene.new 1 "root_scene").sendMessage [] ⟨[]⟩ "counter_behavior"
        ⟨"message"⟩).2.2 := by
  refine ⟨by decide, ?_⟩
  rintro ⟨e, he⟩
  simp [TruffleScene.sendMessage, EventMessageBus.sendMessage, mapFind] at he

/-! ## The actor table: frame and append-only claims -/

/-- The bucket of `a.controller` after `add_(a, actor)` is the old bucket (empty when
there was none) followed by at most one new entry. -/
theorem ActorTable.add_bucket_self (t : ActorTable) (a : Address) (actor : Actor) :
    ∃ suffix, (t.add_ a actor).bucket a.controller
        = some ((t.bucket a.controller).getD [] ++ suffix) ∧ suffix.length ≤ 1 := by
  cases h : t.bucket a.controller with
  | none =>
    refine ⟨[actor], ?_, by simp⟩
    rw [ActorTable.add_of_absent t a actor h]
    unfold ActorTable.bucket at h ⊢
    simp [mapFind_append, h, mapFind]
  | some b =>
    cases hb : b.any (fun x => x.name == a.object) with
    | true =>
      refine ⟨[], ?_, by simp⟩
      rw [ActorTable.add_of_present t a actor b h hb]
      simpa using h
    | false =>
      refine ⟨[actor], ?_, by simp⟩
      rw [ActorTable.add_of_missing t a actor b h hb]
      unfold ActorTable.bucket at h ⊢
      simp [mapFind_mapAssign, h]

/-- The buckets of the other controllers are as they were after `add_(a, actor)`. -/
theorem ActorTable.add_bucket_other (t : ActorTable) (a : Address) (actor : Actor)
    (c : String) (hc : c ≠ a.controller) : (t.add_ a actor).bucket c = t.bucket c := by
  have hc2 : ¬ a.controller = c := fun e => hc e.symm
  cases h : t.bucket a.controller with
  | none =>
    rw [ActorTable.add_of_absent t a actor h]
    unfold ActorTable.bucket
    simp [mapFind_append, mapFind, hc2]
  | some b =>
    cases hb : b.any (fun x => x.name == a.object) with
    | true => rw [ActorTable.add_of_present t a actor b h hb]
    | false =>
      rw [ActorTable.add_of_missing t a actor b h hb]
      unfold ActorTable.bucket
      simp [mapFind_mapAssign, hc2]

/-- C15: `add_` only appends: the buckets of the other controllers are unchanged, the
bucket of `a.controller` is its old contents followed by at most one new entry, and an
address that `lookup_` resolved before the call resolves to the same reference after. -/
theorem C15_add_append_only (t : ActorTable) (a : Address) (r : Actor) :
    (∀ c, c ≠ a.controller → (t.add_ a r).bucket c = t.bucket c) ∧
    (∃ suffix, (t.add_ a r).bucket a.controller
        = some ((t.bucket a.controller).getD [] ++ suffix) ∧
      ((t.add_ a r).bucket a.controller).getD [] = (t.bucket a.controller).getD [] ++ suffix ∧
      (suffix.length = 0 ∨ suffix.length = 1)) ∧
    (∀ a1 r1, (t.lookup_ a1).2 = some r1 → ((t.add_ a r).lookup_ a1).2 = some r1) := by
  obtain ⟨suffix, hs, hlen⟩ := ActorTable.add_bucket_self t a r
  refine ⟨ActorTable.add_bucket_other t a r, ⟨suffix, hs, by rw [hs]; rfl, by omega⟩, ?_⟩
  intro a1 r1 h1
  rw [ActorTable.lookup_snd] at h1 ⊢
  by_cases hc : a1.controller = a.controller
  · rw [hc] at h1 ⊢
    rw [hs]
    cases hb : t.bucket a.controller with
    | none => simp [hb] at h1
    | some b =>
      rw [hb] at h1
      simp only [Option.some_bind] at h1
      simp [h1]
  · rw [ActorTable.add_bucket_other t a r a1.controller hc]
    exact h1

/-- C16: after `add_(a, r)` with `r` named `a.object`, `lookup_(a)` returns a reference,
and it returns `r` when `lookup_(a)` returned empty before the call. -/
theorem C16_lookup_after_add (t : ActorTable) (a : Address) (r : Actor)
    (hn : r.name = a.object) :
    (∃ found, ((t.add_ a r).lookup_ a).2 = some found) ∧
      ((t.lookup_ a).2 = none → ((t.add_ a r).lookup_ a).2 = some r) := by
  have h := ActorTable.lookup_add_self t a r hn
  cases hl : (t.lookup_ a).2 with
  | none =>
    rw [hl] at h
    exact ⟨⟨r, h⟩, fun _ => h⟩
  | some first =>
    rw [hl] at h
    exact ⟨⟨first, h⟩, fun hnone => by simp at hnone⟩

/-- C16 at the empty table. -/
theorem C16_lookup_after_add_witness :
    (⟨3, "counter"⟩ : Actor).name = (⟨"b", "counter"⟩ : Address).object ∧
      ((ActorTable.empty.add_ ⟨"b", "counter"⟩ ⟨3, "counter"⟩).lookup_ ⟨"b", "counter"⟩).2
        = some ⟨3, "counter"⟩ :=
  ⟨by decide,
    (C16_lookup_after_add ActorTable.empty ⟨"b", "counter"⟩ ⟨3, "counter"⟩ (by decide)).2
      (by decide)⟩

/-- C17: `lookup_` leaves the table as it is, also for a controller without a bucket,
for which no bucket appears, and a second `lookup_` returns what the first returned. -/
theorem C17_lookup_frame (t : ActorTable) (address : Address) :
    (t.lookup_ address).1 = t ∧
      (t.lookup_ address).1.bucket address.controller = t.bucket address.controller ∧
      ((t.lookup_ address).1.lookup_ address).2 = (t.lookup_ address).2 := by
  rw [ActorTable.lookup_fst]
  exact ⟨rfl, rfl, rfl⟩

/-! ## Scene initialisation, queue handles, rejected registrations -/

theorem foldl_startStep (entries : List (String × Nat)) (st : InitState) :
    entries.foldl (fun st entry => startStep st entry.2) st
      = { st with started := st.started ++ entries.map (fun entry => entry.2) } := by
  induction entries generalizing st with
  | nil => simp
  | cons e rest ih =>
    rw [List.foldl_cons, ih]
    simp [startStep]

theorem TruffleScene.initScene_eq (s : TruffleScene) (heap : QueueHeap)
    (bus : EventMessageBus) :
    s.initScene heap bus
      = { scene := s, heap := heap, bus := bus,
          started := s.controllers_.map (fun entry => entry.2) } := by
  unfold TruffleScene.initScene
  rw [foldl_startStep]
  simp

/-- The controllers of the scene after a run of constructors are the ones it had followed
by the ones whose constructor returned, which are among the constructed ones. -/
theorem constructAll_controllers (ctrls : List (Nat × String)) (s : TruffleScene)
    (heap : QueueHeap) (bus : EventMessageBus) :
    (constructAll ctrls s heap bus).1.controllers_.map (fun entry => entry.2)
        = s.controllers_.map (fun entry => entry.2) ++ (constructAll ctrls s heap bus).2.2.2 ∧
      ((constructAll ctrls s heap bus).2.2.2).Sublist (ctrls.map Prod.fst) := by
  induction ctrls generalizing s heap bus with
  | nil => simp [constructAll]
  | cons c rest ih =>
    obtain ⟨addr, name⟩ := c
    cases h : mapFind s.controllers_ name with
    | some r =>
      have h1 := TruffleScene.setController_taken s heap bus
        ⟨addr, s.addr, [], none, name⟩ r h
      simp only [constructAll, TruffleController.new, h1]
      exact ⟨(ih s heap bus).1, List.Sublist.cons _ (ih s heap bus).2⟩
    | none =>
      have h1 := TruffleScene.setController_free s heap bus
        ⟨addr, s.addr, [], none, name⟩ h
      simp only [constructAll, TruffleController.new, h1]
      refine ⟨?_, ?_⟩
      · rw [(ih _ _ _).1]
        simp
      · exact List.Sublist.cons₂ _ (ih _ _ _).2

/-- C11: for a scene whose controllers were registered by their constructors, at
pairwise different addresses, one call of `initScene` invokes `start()` once on each
controller whose constructor returned and on no other, and leaves the scene, with its
controller map, the queues and the bus as they were. -/
theorem C11_initScene (ctrls : List (Nat × String)) (addr : Nat) (scene_name : String)
    (heap0 heap : QueueHeap) (bus0 bus : EventMessageBus)
    (hd : (ctrls.map Prod.fst).Nodup) :
    ((constructAll ctrls (TruffleScene.new addr scene_name) heap0 bus0).1.initScene
        heap bus).scene = (constructAll ctrls (TruffleScene.new addr scene_name) heap0 bus0).1 ∧
    ((constructAll ctrls (TruffleScene.new addr scene_name) heap0 bus0).1.initScene
        heap bus).heap = heap ∧
    ((constructAll ctrls (TruffleScene.new addr scene_name) heap0 bus0).1.initScene
        heap bus).bus = bus ∧
    ∀ c, ((constructAll ctrls (TruffleScene.new addr scene_name) heap0 bus0).1.initScene
        heap bus).started.count c =
      if c ∈ (constructAll ctrls (TruffleScene.new addr scene_name) heap0 bus0).2.2.2
      then 1 else 0 := by
  rw [TruffleScene.initScene_eq]
  refine ⟨rfl, rfl, rfl, ?_⟩
  intro c
  obtain ⟨h1, h2⟩ := constructAll_controllers ctrls (TruffleScene.new addr scene_name) heap0 bus0
  have hnd : ((constructAll ctrls (TruffleScene.new addr scene_name) heap0 bus0).2.2.2).Nodup :=
    List.Nodup.sublist h2 hd
  have h3 : (constructAll ctrls (TruffleScene.new addr scene_name) heap0 bus0).1.controllers_.map
      (fun entry => entry.2)
      = (constructAll ctrls (TruffleScene.new addr scene_name) heap0 bus0).2.2.2 := by
    rw [h1]
    simp [TruffleScene.new]
  show List.count c ((constructAll ctrls (TruffleScene.new addr scene_name) heap0
    bus0).1.controllers_.map (fun entry => entry.2)) = _
  rw [h3]
  exact List.count_eq_of_nodup hnd

/-- C11 at a scene with three constructor calls, the third with a name already taken. -/
theorem C11_initScene_witness :
    ([(7, "counter_behavior"), (8, "image_button2"), (9, "counter_behavior")].map
        Prod.fst).Nodup ∧
      ∀ c, ((constructAll [(7, "counter_behavior"), (8, "image_button2"),
          (9, "counter_behavior")] (TruffleScene.new 1 "root_scene") [] ⟨[]⟩).1.initScene
          [[]] ⟨[]⟩).started.count c =
        if c ∈ (constructAll [(7, "counter_behavior"), (8, "image_button2"),
          (9, "counter_behavior")] (TruffleScene.new 1 "root_scene") [] ⟨[]⟩).2.2.2
        then 1 else 0 :=
  ⟨by decide,
    (C11_initScene [(7, "counter_behavior"), (8, "image_button2"), (9, "counter_behavior")]
      1 "root_scene" [] [[]] ⟨[]⟩ ⟨[]⟩ (by decide)).2.2.2⟩

/-- C14: when the scene already maps the controller's name, `setController` throws and
the scene, with the earlier controller still under that name, the heap of queues, the
bus and the rejected controller are as they were before the call; a controller rejected
in its constructor is left with the null queue pointer. -/
theorem C14_rejected_registration (s : TruffleScene) (heap : QueueHeap)
    (bus : EventMessageBus) (b : TruffleController) (earlier : Nat)
    (h : mapFind s.controllers_ b.name_ = some earlier) :
    Raised (s.setController heap bus b).outcome ∧
    (s.setController heap bus b).scene = s ∧
    mapFind (s.setController heap bus b).scene.controllers_ b.name_ = some earlier ∧
    (s.setController heap bus b).heap = heap ∧
    (s.setController heap bus b).bus = bus ∧
    (s.setController heap bus b).controller = b ∧
    (∀ addr, (TruffleController.new addr s heap bus b.name_).controller.message_queue_ = none ∧
      (TruffleController.new addr s heap bus b.name_).scene = s ∧
      (TruffleController.new addr s heap bus b.name_).heap = heap ∧
      (TruffleController.new addr s heap bus b.name_).bus = bus) := by
  rw [TruffleScene.setController_taken s heap bus b earlier h]
  refine ⟨⟨_, rfl⟩, rfl, h, rfl, rfl, rfl, ?_⟩
  intro addr
  unfold TruffleController.new
  rw [TruffleScene.setController_taken s heap bus ⟨addr, s.addr, [], none, b.name_⟩ earlier h]
  exact ⟨rfl, rfl, rfl, rfl⟩

/-- C14 at a scene that holds `counter_behavior` at address 7. -/
theorem C14_rejected_registration_witness :
    (TruffleScene.setController ⟨1, "root_scene", [("counter_behavior", 7)]⟩ [[⟨"m"⟩]]
        ⟨[("counter_behavior", 0)]⟩ ⟨8, 1, [], none, "counter_behavior"⟩).bus
      = ⟨[("counter_behavior", 0)]⟩ :=
  (C14_rejected_registration ⟨1, "root_scene", [("counter_behavior", 7)]⟩ [[⟨"m"⟩]]
    ⟨[("counter_behavior", 0)]⟩ ⟨8, 1, [], none, "counter_behavior"⟩ 7 (by decide)).2.2.2.2.1

/-- A public call other than `setMessageQueue` keeps the controller's queue pointer and
name and the bus. -/
theorem runPublicCall_keeps (w : Process) (call : PublicCall)
    (hc : call.isSetMessageQueue = false) :
    (runPublicCall w call).controller.message_queue_ = w.controller.message_queue_ ∧
      (runPublicCall w call).controller.name_ = w.controller.name_ ∧
      (runPublicCall w call).bus = w.bus := by
  cases call with
  | sceneSendMessage dst m =>
    simp [runPublicCall, TruffleScene.sendMessage, EventMessageBus.sendMessage_bus]
  | sendMessage dst m =>
    simp [runPublicCall, TruffleController.sendMessage, TruffleScene.sendMessage,
      EventMessageBus.sendMessage_bus]
  | recvMessage =>
    simp only [runPublicCall]
    cases w.controller.recvMessage w.heap <;> exact ⟨rfl, rfl, rfl⟩
  | addObject object =>
    simp only [runPublicCall, TruffleController.addObject]
    split <;> simp
  | setMessageQueue ptr => simp [PublicCall.isSetMessageQueue] at hc
  | initScene =>
    simp [runPublicCall, TruffleScene.initScene_eq]

theorem runPublicCalls_keeps (calls : List PublicCall) (w : Process)
    (hc : ∀ call ∈ calls, call.isSetMessageQueue = false) :
    (runPublicCalls w calls).controller.message_queue_ = w.controller.message_queue_ ∧
      (runPublicCalls w calls).controller.name_ = w.controller.name_ ∧
      (runPublicCalls w calls).bus = w.bus := by
  induction calls generalizing w with
  | nil => exact ⟨rfl, rfl, rfl⟩
  | cons call rest ih =>
    have h1 := runPublicCall_keeps w call (hc call (List.mem_cons_self _ _))
    have h2 := ih (runPublicCall w call) (fun c hcm => hc c (List.mem_cons_of_mem _ hcm))
    simp only [runPublicCalls, List.foldl_cons] at h2 ⊢
    exact ⟨h2.1.trans h1.1, h2.2.1.trans h1.2.1, h2.2.2.trans h1.2.2⟩

/-- C12, as stated, fails: after a successful registration, a call of the public
`setMessageQueue` with the queue of another controller leaves the controller with that
queue instead of the bus's queue for its own name. -/
theorem C12_counterexample :
    (TruffleController.new 7 (TruffleScene.new 1 "root_scene") [[]]
        ⟨[("image_button2", 0)]⟩ "counter_behavior").outcome = .ok () ∧
      (TruffleController.new 7 (TruffleScene.new 1 "root_scene") [[]]
        ⟨[("image_button2", 0)]⟩ "counter_behavior").controller.message_queue_ = some 1 ∧
      (runPublicCalls
        ⟨(TruffleController.new 7 (TruffleScene.new 1 "root_scene") [[]]
            ⟨[("image_button2", 0)]⟩ "counter_behavior").scene,
          (TruffleController.new 7 (TruffleScene.new 1 "root_scene") [[]]
            ⟨[("image_button2", 0)]⟩ "counter_behavior").heap,
          (TruffleController.new 7 (TruffleScene.new 1 "root_scene") [[]]
            ⟨[("image_button2", 0)]⟩ "counter_behavior").bus,
          (TruffleController.new 7 (TruffleScene.new 1 "root_scene") [[]]
            ⟨[("image_button2", 0)]⟩ "counter_behavior").controller⟩
        [.setMessageQueue (some 0)]).controller.message_queue_ = some 0 := by
  decide

/-- C12, amended: after a successful registration the controller's queue pointer is the
bus's queue for the controller's own name, and no later sequence of `sendMessage` (of
the scene or of the controller), `recvMessage`, `addObject` and `initScene` calls
changes the pointer or the queue the bus keeps under that name; `setMessageQueue`
replaces the pointer by its argument. -/
theorem C12_queue_handle (s : TruffleScene) (heap : QueueHeap) (bus : EventMessageBus)
    (b : TruffleController) (calls : List PublicCall)
    (hok : (s.setController heap bus b).outcome = .ok ())
    (hcalls : ∀ call ∈ calls, call.isSetMessageQueue = false) :
    (∃ p, (s.setController heap bus b).controller.message_queue_ = some p ∧
      mapFind (s.setController heap bus b).bus.queues_ b.name_ = some p ∧
      (runPublicCalls
        ⟨(s.setController heap bus b).scene, (s.setController heap bus b).heap,
          (s.setController heap bus b).bus, (s.setController heap bus b).controller⟩
        calls).controller.message_queue_ = some p ∧
      mapFind (runPublicCalls
        ⟨(s.setController heap bus b).scene, (s.setController heap bus b).heap,
          (s.setController heap bus b).bus, (s.setController heap bus b).controller⟩
        calls).bus.queues_ b.name_ = some p) ∧
    (∀ (w : Process) (ptr : Option QueuePtr),
      (runPublicCall w (.setMessageQueue ptr)).controller.message_queue_ = ptr) := by
  obtain ⟨p, hp1, hp2⟩ := TruffleScene.setController_registered s heap bus b hok
  obtain ⟨k1, _, k3⟩ := runPublicCalls_keeps calls
    ⟨(s.setController heap bus b).scene, (s.setController heap bus b).heap,
      (s.setController heap bus b).bus, (s.setController heap bus b).controller⟩ hcalls
  refine ⟨⟨p, hp1, hp2, ?_, ?_⟩, fun w ptr => rfl⟩
  · rw [k1]
    exact hp1
  · rw [k3]
    exact hp2

/-- C12, amended, at a controller built in an empty process, followed by a send, a
receive, an `addObject` and an `initScene`. -/
theorem C12_queue_handle_witness :
    ∃ p, (TruffleScene.setController (TruffleScene.new 1 "root_scene") [] ⟨[]⟩
        ⟨7, 1, [], none, "counter_behavior"⟩).controller.message_queue_ = some p ∧
      (runPublicCalls
        ⟨(TruffleScene.setController (TruffleScene.new 1 "root_scene") [] ⟨[]⟩
            ⟨7, 1, [], none, "counter_behavior"⟩).scene,
          (TruffleScene.setController (TruffleScene.new 1 "root_scene") [] ⟨[]⟩
            ⟨7, 1, [], none, "counter_behavior"⟩).heap,
          (TruffleScene.setController (TruffleScene.new 1 "root_scene") [] ⟨[]⟩
            ⟨7, 1, [], none, "counter_behavior"⟩).bus,
          (TruffleScene.setController (TruffleScene.new 1 "root_scene") [] ⟨[]⟩
            ⟨7, 1, [], none, "counter_behavior"⟩).controller⟩
        [.sendMessage "counter_behavior" ⟨"message"⟩, .recvMessage,
          .addObject ⟨3, "text"⟩, .initScene]).controller.message_queue_ = some p :=
  let ⟨p, h1, _, h3, _⟩ :=
    (C12_queue_handle (TruffleScene.new 1 "root_scene") [] ⟨[]⟩
      ⟨7, 1, [], none, "counter_behavior"⟩
      [.sendMessage "counter_behavior" ⟨"message"⟩, .recvMessage, .addObject ⟨3, "text"⟩,
        .initScene] (by decide) (by decide)).1
  ⟨p, h1, h3⟩

/-! ## One queue per name across scenes -/

theorem EventMessageBus.getMessageQueue_of_find (bus : EventMessageBus) (heap : QueueHeap)
    (name : String) (p : QueuePtr) (h : mapFind bus.queues_ name = some p) :
    bus.getMessageQueue heap name = (heap, bus, p) := by
  simp [EventMessageBus.getMessageQueue, h]

/-- The queue that `getMessageQueue` returns is empty when the queue that the bus kept
under the name, if any, was empty. -/
theorem EventMessageBus.getMessageQueue_empty (bus : EventMessageBus) (heap : QueueHeap)
    (name : String) (hq : ∀ p, mapFind bus.queues_ name = some p → heap[p]? = some []) :
    (bus.getMessageQueue heap name).1[(bus.getMessageQueue heap name).2.2]? = some [] := by
  cases h : mapFind bus.queues_ name with
  | some p =>
    rw [EventMessageBus.getMessageQueue_of_find bus heap name p h]
    exact hq p h
  | none => simp [EventMessageBus.getMessageQueue, h]

/-- A `recvMessage` on a queue that holds one message returns it and leaves the queue
empty; the next `recvMessage` through the same pointer returns empty. -/
theorem recv_then_empty (c1 c2 : TruffleController) (heap : QueueHeap) (p : QueuePtr)
    (m : Message) (h1 : c1.message_queue_ = some p) (h2 : c2.message_queue_ = some p)
    (hq : heap[p]? = some [m]) :
    ∃ heap1, c1.recvMessage heap = some (some m, heap1) ∧
      c2.recvMessage heap1 = some (none, heap1) := by
  have hlt := getElem?_lt_length heap p [m] hq
  have h3 : (heap.set p [])[p]? = some [] := List.getElem?_set_self hlt
  exact ⟨heap.set p [], by simp [TruffleController.recvMessage, h1, hq],
    by simp [TruffleController.recvMessage, h2, h3]⟩

/-- C18: two controllers constructed under one name in two scenes, `r1` first and `r2`
second, hold the same queue pointer, the one the bus keeps under the name; when that
queue is empty, a message sent to the name through any scene is returned by the
`recvMessage` of the controller that polls first, and the other then receives empty. -/
theorem C18_shared_queue (s1 s2 sender : TruffleScene) (heap : QueueHeap)
    (bus : EventMessageBus) (a1 a2 : Nat) (name : String) (m : Message)
    (r1 r2 : Registration)
    (h1 : mapFind s1.controllers_ name = none) (h2 : mapFind s2.controllers_ name = none)
    (hq : ∀ p, mapFind bus.queues_ name = some p → heap[p]? = some [])
    (hr1 : r1 = TruffleController.new a1 s1 heap bus name)
    (hr2 : r2 = TruffleController.new a2 s2 r1.heap r1.bus name) :
    r1.outcome = .ok () ∧ r2.outcome = .ok () ∧
    (∃ p, r1.controller.message_queue_ = some p ∧ r2.controller.message_queue_ = some p ∧
      mapFind r2.bus.queues_ name = some p) ∧
    (sender.sendMessage r2.heap r2.bus name m).2.2 = .ok true ∧
    (∃ heap1, r1.controller.recvMessage (sender.sendMessage r2.heap r2.bus name m).1
        = some (some m, heap1) ∧ r2.controller.recvMessage heap1 = some (none, heap1)) ∧
    (∃ heap1, r2.controller.recvMessage (sender.sendMessage r2.heap r2.bus name m).1
        = some (some m, heap1) ∧ r1.controller.recvMessage heap1 = some (none, heap1)) := by
  have e1 := TruffleScene.setController_free s1 heap bus ⟨a1, s1.addr, [], none, name⟩ h1
  have hfind := EventMessageBus.getMessageQueue_find bus heap name
  have hempty := EventMessageBus.getMessageQueue_empty bus heap name hq
  have e2 := TruffleScene.setController_free s2 (bus.getMessageQueue heap name).1
    (bus.getMessageQueue heap name).2.1 ⟨a2, s2.addr, [], none, name⟩ h2
  simp only [EventMessageBus.getMessageQueue_of_find _ _ _ _ hfind] at e2
  have hr1' : r1 = _ := hr1.trans e1
  subst hr1'
  have hr2' : r2 = _ := hr2.trans e2
  subst hr2'
  have hsend := TruffleScene.sendMessage_queued sender (bus.getMessageQueue heap name).1
    (bus.getMessageQueue heap name).2.1 name m (bus.getMessageQueue heap name).2.2 [] hfind
    hempty
  have hlt := getElem?_lt_length _ _ _ hempty
  have hone : ((bus.getMessageQueue heap name).1.set (bus.getMessageQueue heap name).2.2
      ([] ++ [m]))[(bus.getMessageQueue heap name).2.2]? = some [m] := by
    simpa using List.getElem?_set_self hlt
  refine ⟨rfl, rfl, ⟨_, rfl, rfl, hfind⟩, ?_, ?_, ?_⟩
  · simp only [hsend]
  · simp only [hsend]
    exact recv_then_empty _ _ _ _ m rfl rfl hone
  · simp only [hsend]
    exact recv_then_empty _ _ _ _ m rfl rfl hone

/-- C18 at an empty process: the controller of the second scene polls first and gets
the message, the controller of the first scene then gets empty. -/
theorem C18_shared_queue_witness :
    ∃ heap1, (TruffleController.new 8 (TruffleScene.new 2 "clicked_scene")
          (TruffleController.new 7 (TruffleScene.new 1 "root_scene") [] ⟨[]⟩
            "counter_behavior").heap
          (TruffleController.new 7 (TruffleScene.new 1 "root_scene") [] ⟨[]⟩
            "counter_behavior").bus "counter_behavior").controller.recvMessage
        ((TruffleScene.new 1 "root_scene").sendMessage
          (TruffleController.new 8 (TruffleScene.new 2 "clicked_scene")
            (TruffleController.new 7 (TruffleScene.new 1 "root_scene") [] ⟨[]⟩
              "counter_behavior").heap
            (TruffleController.new 7 (TruffleScene.new 1 "root_scene") [] ⟨[]⟩
              "counter_behavior").bus "counter_behavior").heap
          (TruffleController.new 8 (TruffleScene.new 2 "clicked_scene")
            (TruffleController.new 7 (TruffleScene.new 1 "root_scene") [] ⟨[]⟩
              "counter_behavior").heap
            (TruffleController.new 7 (TruffleScene.new 1 "root_scene") [] ⟨[]⟩
              "counter_behavior").bus "counter_behavior").bus
          "counter_behavior" ⟨"message"⟩).1 = some (some ⟨"message"⟩, heap1) ∧
      (TruffleController.new 7 (TruffleScene.new 1 "root_scene") [] ⟨[]⟩
        "counter_behavior").controller.recvMessage heap1 = some (none, heap1) :=
  (C18_shared_queue (TruffleScene.new 1 "root_scene") (TruffleScene.new 2 "clicked_scene")
    (TruffleScene.new 1 "root_scene") [] ⟨[]⟩ 7 8 "counter_behavior" ⟨"message"⟩
    (TruffleController.new 7 (TruffleScene.new 1 "root_scene") [] ⟨[]⟩ "counter_behavior")
    (TruffleController.new 8 (TruffleScene.new 2 "clicked_scene")
      (TruffleController.new 7 (TruffleScene.new 1 "root_scene") [] ⟨[]⟩
        "counter_behavior").heap
      (TruffleController.new 7 (TruffleScene.new 1 "root_scene") [] ⟨[]⟩
        "counter_behavior").bus "counter_behavior")
    (by decide) (by decide) (by decide) rfl rfl).2.2.2.2.2

/-! ## The state manager and Illustya -/

/-- C13: for every manager, `stateTransition(X)` succeeds exactly when the edge from the
active state to `X` is declared; after a success `activeState()` is `X`; otherwise the
call signals an error and leaves the manager, with its active state, as it was; the
declared edges are those given to `setStateTransition`, which is directed. -/
theorem C13_stateTransition {T σ : Type} [DecidableEq σ] (m : StatefulObjectManager T σ)
    (X : σ) :
    ((m.stateTransition X).2 = .ok () ↔ (m.activeState, X) ∈ m.transitions_) ∧
    ((m.stateTransition X).2 = .ok () → (m.stateTransition X).1.activeState = X) ∧
    ((m.stateTransition X).2 ≠ .ok () →
      Raised (m.stateTransition X).2 ∧ (m.stateTransition X).1 = m) ∧
    (∀ src dst a b, (a, b) ∈ (m.setStateTransition src dst).transitions_ ↔
      ((a, b) ∈ m.transitions_ ∨ (a = src ∧ b = dst))) ∧
    (∀ src dst, (m.setStateTransition src dst).activeState = m.activeState) := by
  unfold StatefulObjectManager.stateTransition StatefulObjectManager.activeState
  by_cases h : (m.active_, X) ∈ m.transitions_
  · simp [h, StatefulObjectManager.setStateTransition]
  · simp [h, StatefulObjectManager.setStateTransition, Raised]

/-- C13 at the manager of `Illustya` in state `Hovered`: the undeclared transition to
`Hovered` signals an error and leaves the manager as it was. -/
theorem C13_stateTransition_witness :
    Raised ((⟨[(IllustyaState.Normal, ImageTexture.new "../testdata/home.png" "i" 0 0),
          (IllustyaState.Hovered, ImageTexture.new "../testdata/top.png" "i" 50 0)],
        [(IllustyaState.Normal, IllustyaState.Hovered),
          (IllustyaState.Hovered, IllustyaState.Normal)],
        IllustyaState.Hovered⟩ : StatefulObjectManager ImageTexture IllustyaState).stateTransition
          IllustyaState.Hovered).2 ∧
      ((⟨[(IllustyaState.Normal, ImageTexture.new "../testdata/home.png" "i" 0 0),
          (IllustyaState.Hovered, ImageTexture.new "../testdata/top.png" "i" 50 0)],
        [(IllustyaState.Normal, IllustyaState.Hovered),
          (IllustyaState.Hovered, IllustyaState.Normal)],
        IllustyaState.Hovered⟩ : StatefulObjectManager ImageTexture IllustyaState).stateTransition
          IllustyaState.Hovered).1 =
        ⟨[(IllustyaState.Normal, ImageTexture.new "../testdata/home.png" "i" 0 0),
          (IllustyaState.Hovered, ImageTexture.new "../testdata/top.png" "i" 50 0)],
        [(IllustyaState.Normal, IllustyaState.Hovered),
          (IllustyaState.Hovered, IllustyaState.Normal)],
        IllustyaState.Hovered⟩ :=
  (C13_stateTransition
    (⟨[(IllustyaState.Normal, ImageTexture.new "../testdata/home.png" "i" 0 0),
        (IllustyaState.Hovered, ImageTexture.new "../testdata/top.png" "i" 50 0)],
      [(IllustyaState.Normal, IllustyaState.Hovered),
        (IllustyaState.Hovered, IllustyaState.Normal)],
      IllustyaState.Hovered⟩ : StatefulObjectManager ImageTexture IllustyaState)
    IllustyaState.Hovered).2.2.1 (by decide)

/-- A constructed `Illustya` is consistent, with `Normal` active. -/
theorem Illustya.new_consistent {β : Type}
    (addRenderable : β → ImageTexture → β × Except TruffleException Unit) (base : β)
    (i0 : Illustya) (hnew : (Illustya.new addRenderable base).2 = .ok i0) :
    i0.Consistent := by
  unfold Illustya.new at hnew
  simp only [StatefulObjectManager.setInitStatefulObject,
    StatefulObjectManager.bindStatefulObject, StatefulObjectManager.setStateTransition,
    StatefulObjectManager.statefulObject, StatefulObjectManager.onStatefulObject,
    boundObject, onBound, reduceCtorEq, if_false, if_true, List.nil_append,
    List.cons_append] at hnew
  split at hnew
  · simp at hnew
  · split at hnew
    · simp at hnew
    · simp only [Except.ok.injEq] at hnew
      subst hnew
      exact ⟨_, _, rfl, rfl, rfl, rfl⟩

/-- One `update` call on a consistent `Illustya` returns without an exception and
leaves a consistent `Illustya`. -/
theorem Illustya.update_consistent (i : Illustya) (ev : SDL_Event) (h : i.Consistent) :
    (i.update ev).2 = .ok () ∧ (i.update ev).1.Consistent := by
  obtain ⟨⟨objs, trans, act⟩⟩ := i
  obtain ⟨home, top, ho, ht, h1, h2⟩ := h
  simp only at ho ht h1 h2
  subst ho ht
  unfold Illustya.update
  cases act with
  | Normal =>
    by_cases hd : ev.type = SDL_KEYDOWN
    · simp only [hd, StatefulObjectManager.activeState, and_self, if_true]
      refine ⟨by simp [Illustya.switchTo, StatefulObjectManager.stateTransition,
        StatefulObjectManager.onStatefulObject, boundObject], ?_⟩
      exact ⟨home.disableRender, top.enableRender,
        by simp [Illustya.switchTo, StatefulObjectManager.stateTransition,
          StatefulObjectManager.onStatefulObject, boundObject, onBound],
        by simp [Illustya.switchTo, StatefulObjectManager.stateTransition,
          StatefulObjectManager.onStatefulObject, boundObject, onBound],
        by simp [Illustya.switchTo, StatefulObjectManager.stateTransition,
          StatefulObjectManager.onStatefulObject, boundObject, onBound,
          ImageTexture.disableRender],
        by simp [Illustya.switchTo, StatefulObjectManager.stateTransition,
          StatefulObjectManager.onStatefulObject, boundObject, onBound,
          ImageTexture.enableRender]⟩
    · simp only [hd, StatefulObjectManager.activeState, false_and, if_false, reduceCtorEq,
        and_false]
      exact ⟨trivial, home, top, rfl, rfl, h1, h2⟩
  | Hovered =>
    by_cases hu : ev.type = SDL_KEYUP
    · simp only [hu, StatefulObjectManager.activeState, reduceCtorEq, and_false, if_false,
        and_self, if_true]
      refine ⟨by simp [Illustya.switchTo, StatefulObjectManager.stateTransition,
        StatefulObjectManager.onStatefulObject, boundObject, onBound], ?_⟩
      exact ⟨home.enableRender, top.disableRender,
        by simp [Illustya.switchTo, StatefulObjectManager.stateTransition,
          StatefulObjectManager.onStatefulObject, boundObject, onBound],
        by simp [Illustya.switchTo, StatefulObjectManager.stateTransition,
          StatefulObjectManager.onStatefulObject, boundObject, onBound],
        by simp [Illustya.switchTo, StatefulObjectManager.stateTransition,
          StatefulObjectManager.onStatefulObject, boundObject, onBound,
          ImageTexture.enableRender],
        by simp [Illustya.switchTo, StatefulObjectManager.stateTransition,
          StatefulObjectManager.onStatefulObject, boundObject, onBound,
          ImageTexture.disableRender]⟩
    · simp only [hu, StatefulObjectManager.activeState, reduceCtorEq, and_false, if_false,
        false_and]
      exact ⟨trivial, home, top, rfl, rfl, h1, h2⟩

theorem Illustya.updates_consistent (evs : List SDL_Event) (i : Illustya)
    (h : i.Consistent) :
    (∀ o ∈ (i.updates evs).2, o = .ok ()) ∧ (i.updates evs).1.Consistent := by
  induction evs generalizing i with
  | nil => exact ⟨fun o ho => by simp [Illustya.updates] at ho, h⟩
  | cons ev rest ih =>
    obtain ⟨h1, h2⟩ := Illustya.update_consistent i ev h
    obtain ⟨h3, h4⟩ := ih (i.update ev).1 h2
    refine ⟨?_, h4⟩
    intro o ho
    simp only [Illustya.updates, List.mem_cons] at ho
    rcases ho with ho | ho
    · rw [ho, h1]
    · exact h3 o ho

/-- C19: for an `Illustya` whose constructor returned, after every sequence of
`update(ev)` calls: no call has thrown, the active state is `Normal` or `Hovered`,
the object bound to the active state is render-enabled and the object bound to the
other state is render-disabled, and the `stateTransition` call of a further `update`
targets a declared successor of the active state. -/
theorem C19_illustya_visibility {β : Type}
    (addRenderable : β → ImageTexture → β × Except TruffleException Unit) (base : β)
    (i0 : Illustya) (evs : List SDL_Event)
    (hnew : (Illustya.new addRenderable base).2 = .ok i0) :
    (∀ o ∈ (i0.updates evs).2, o = .ok ()) ∧
    ((i0.updates evs).1.state_manager_.activeState = IllustyaState.Normal ∨
      (i0.updates evs).1.state_manager_.activeState = IllustyaState.Hovered) ∧
    (∃ object, (i0.updates evs).1.state_manager_.statefulObject
        (i0.updates evs).1.state_manager_.activeState = .ok object ∧
      object.render_enabled = true) ∧
    (∃ object, (i0.updates evs).1.state_manager_.statefulObject
        (i0.updates evs).1.state_manager_.activeState.other = .ok object ∧
      object.render_enabled = false) ∧
    (∀ ev target, (i0.updates evs).1.transitionTarget ev = some target →
      ((i0.updates evs).1.state_manager_.activeState, target)
        ∈ (i0.updates evs).1.state_manager_.transitions_) := by
  obtain ⟨hok, hcons⟩ :=
    Illustya.updates_consistent evs i0 (Illustya.new_consistent addRenderable base i0 hnew)
  refine ⟨hok, ?_⟩
  generalize (i0.updates evs).1 = i at hcons ⊢
  obtain ⟨⟨objs, trans, act⟩⟩ := i
  obtain ⟨home, top, ho, ht, h1, h2⟩ := hcons
  simp only at ho ht h1 h2
  subst ho ht
  cases act with
  | Normal =>
    refine ⟨Or.inl rfl, ⟨home, ?_, by simpa using h1⟩, ⟨top, ?_, by simpa using h2⟩, ?_⟩
    · simp [StatefulObjectManager.statefulObject, StatefulObjectManager.activeState,
        boundObject]
    · simp [StatefulObjectManager.statefulObject, StatefulObjectManager.activeState,
        boundObject, IllustyaState.other]
    · intro ev target htarget
      unfold Illustya.transitionTarget at htarget
      simp only [StatefulObjectManager.activeState, reduceCtorEq, and_false, if_false,
        and_true] at htarget
      split at htarget
      · simp only [Option.some.injEq] at htarget
        subst htarget
        simp [StatefulObjectManager.activeState]
      · simp at htarget
  | Hovered =>
    refine ⟨Or.inr rfl, ⟨top, ?_, by simpa using h2⟩, ⟨home, ?_, by simpa using h1⟩, ?_⟩
    · simp [StatefulObjectManager.statefulObject, StatefulObjectManager.activeState,
        boundObject]
    · simp [StatefulObjectManager.statefulObject, StatefulObjectManager.activeState,
        boundObject, IllustyaState.other]
    · intro ev target htarget
      unfold Illustya.transitionTarget at htarget
      simp only [StatefulObjectManager.activeState, reduceCtorEq, and_false, if_false,
        and_true] at htarget
      split at htarget
      · simp only [Option.some.injEq] at htarget
        subst htarget
        simp [StatefulObjectManager.activeState]
      · simp at htarget

/-- C19 at an `Illustya` built with an `addRenderable` that never throws, after a key
down, a second key down and a key up: the instance of the active state is enabled. -/
theorem C19_illustya_visibility_witness :
    (@Illustya.new Unit (fun b _ => (b, .ok ())) ()).2
        = .ok ⟨⟨[(IllustyaState.Normal,
              ⟨"../testdata/home.png", "illustya_behavior", 0, 0, true⟩),
            (IllustyaState.Hovered,
              ⟨"../testdata/top.png", "illustya_behavior", 50, 0, false⟩)],
          [(IllustyaState.Normal, IllustyaState.Hovered),
            (IllustyaState.Hovered, IllustyaState.Normal)],
          IllustyaState.Normal⟩⟩ ∧
      ∃ object, ((⟨⟨[(IllustyaState.Normal,
                ⟨"../testdata/home.png", "illustya_behavior", 0, 0, true⟩),
              (IllustyaState.Hovered,
                ⟨"../testdata/top.png", "illustya_behavior", 50, 0, false⟩)],
            [(IllustyaState.Normal, IllustyaState.Hovered),
              (IllustyaState.Hovered, IllustyaState.Normal)],
            IllustyaState.Normal⟩⟩ : Illustya).updates
          [⟨SDL_KEYDOWN⟩, ⟨SDL_KEYDOWN⟩, ⟨SDL_KEYUP⟩]).1.state_manager_.statefulObject
          ((⟨⟨[(IllustyaState.Normal,
                ⟨"../testdata/home.png", "illustya_behavior", 0, 0, true⟩),
              (IllustyaState.Hovered,
                ⟨"../testdata/top.png", "illustya_behavior", 50, 0, false⟩)],
            [(IllustyaState.Normal, IllustyaState.Hovered),
              (IllustyaState.Hovered, IllustyaState.Normal)],
            IllustyaState.Normal⟩⟩ : Illustya).updates
          [⟨SDL_KEYDOWN⟩, ⟨SDL_KEYDOWN⟩, ⟨SDL_KEYUP⟩]).1.state_manager_.activeState
          = .ok object ∧ object.render_enabled = true :=
  ⟨by decide,
    (C19_illustya_visibility (fun (b : Unit) _ => (b, .ok ())) ()
      ⟨⟨[(IllustyaState.Normal, ⟨"../testdata/home.png", "illustya_behavior", 0, 0, true⟩),
          (IllustyaState.Hovered,
            ⟨"../testdata/top.png", "illustya_behavior", 50, 0, false⟩)],
        [(IllustyaState.Normal, IllustyaState.Hovered),
          (IllustyaState.Hovered, IllustyaState.Normal)],
        IllustyaState.Normal⟩⟩
      [⟨SDL_KEYDOWN⟩, ⟨SDL_KEYDOWN⟩, ⟨SDL_KEYUP⟩] (by decide)).2.2.1⟩

/-! ## Counter -/

theorem digitChar_facts (d : Nat) (hd : d < 10) :
    (Nat.digitChar d).isDigit = true ∧ (Nat.digitChar d).toNat - 48 = d ∧
      isspace (Nat.digitChar d) = false ∧ Nat.digitChar d ≠ '-' ∧ Nat.digitChar d ≠ '+' := by
  interval_cases d <;> decide

theorem digitsValue_append_one (pre : List Char) (c : Char) :
    digitsValue (pre ++ [c]) = digitsValue pre * 10 + (c.toNat - 48) := by
  simp [digitsValue]

/-- The digits that `Nat.toDigitsCore` puts in front of `ds`: a non-empty run of decimal
digits that stands for `n`. -/
theorem toDigitsCore_spec (fuel n : Nat) (ds : List Char) (h : n < fuel) :
    ∃ pre, Nat.toDigitsCore 10 fuel n ds = pre ++ ds ∧ pre ≠ [] ∧
      (∀ c ∈ pre, ∃ d, d < 10 ∧ c = Nat.digitChar d) ∧ digitsValue pre = n := by
  induction fuel generalizing n ds with
  | zero => omega
  | succ fuel ih =>
    have hmod : n % 10 < 10 := Nat.mod_lt _ (by omega)
    have hv := (digitChar_facts (n % 10) hmod).2.1
    by_cases h0 : n / 10 = 0
    · refine ⟨[Nat.digitChar (n % 10)], by simp [Nat.toDigitsCore, h0], by simp, ?_, ?_⟩
      · intro c hc
        exact ⟨n % 10, hmod, by simpa using hc⟩
      · simp only [digitsValue, List.foldl_cons, List.foldl_nil, hv]
        omega
    · have hlt : n / 10 < fuel := by omega
      obtain ⟨pre, hpre, _, hall, hval⟩ := ih (n / 10) (Nat.digitChar (n % 10) :: ds) hlt
      refine ⟨pre ++ [Nat.digitChar (n % 10)], by simp [Nat.toDigitsCore, h0, hpre], by simp,
        ?_, ?_⟩
      · intro c hc
        simp only [List.mem_append, List.mem_singleton] at hc
        rcases hc with hc | hc
        · exact hall c hc
        · exact ⟨n % 10, hmod, hc⟩
      · rw [digitsValue_append_one, hval, hv]
        omega

/-- On a non-empty run of decimal digits within `int`, `stoi` returns its value. -/
theorem stoi_digits (cs : List Char) (hne : cs ≠ [])
    (hall : ∀ c ∈ cs, ∃ d, d < 10 ∧ c = Nat.digitChar d)
    (hval : digitsValue cs ≤ 2147483647) :
    stoi (String.mk cs) = .ok (Int.ofNat (digitsValue cs)) := by
  cases cs with
  | nil => exact absurd rfl hne
  | cons c rest =>
    obtain ⟨d, hd, hc⟩ := hall c (List.mem_cons_self _ _)
    obtain ⟨_, _, hsp, hminus, hplus⟩ := digitChar_facts d hd
    rw [← hc] at hsp hminus hplus
    have htake : (c :: rest).takeWhile Char.isDigit = c :: rest := by
      rw [List.takeWhile_eq_self_iff]
      intro x hx
      obtain ⟨dx, hdx, hxe⟩ := hall x hx
      rw [hxe]
      exact (digitChar_facts dx hdx).1
    have hdrop : (c :: rest).dropWhile isspace = c :: rest := by
      simp [List.dropWhile, hsp]
    unfold stoi
    simp only [hdrop, hminus, hplus, if_false, htake, reduceCtorEq, Bool.false_eq_true]
    have h2 : ¬ ((Int.ofNat (digitsValue (c :: rest)) : Int) < -2147483648 ∨
        2147483647 < (Int.ofNat (digitsValue (c :: rest)) : Int)) := by
      simp only [Int.ofNat_eq_coe]
      omega
    simp only [Int.ofNat_eq_coe] at h2 ⊢
    simp only [h2, if_false]

/-- The function `stoi` reads back what `to_string` wrote, for a value of `int` that is
not negative. -/
theorem stoi_to_string (n : Nat) (hn : n ≤ 2147483647) :
    stoi (to_string (Int.ofNat n)) = .ok (Int.ofNat n) := by
  obtain ⟨pre, hpre, hne, hall, hval⟩ := toDigitsCore_spec (n + 1) n [] (by omega)
  have h1 : to_string (Int.ofNat n) = String.mk pre := by
    simp only [to_string, Nat.toDigits, hpre, List.append_nil]
  rw [h1, stoi_digits pre hne hall (by omega), hval]

theorem preIncrement_of_lt (n : Nat) (hn : n < 2147483647) :
    preIncrement (Int.ofNat n) = Int.ofNat (n + 1) := by
  simp only [preIncrement, Int.ofNat_eq_coe]
  omega

/-- One `update` call of a counter whose text is the decimal form of `n`. -/
theorem Counter.update_step (k : Counter) (heap : QueueHeap) (p : QueuePtr)
    (q : List Message) (n : Nat) (ev : SDL_Event)
    (hp : k.base.message_queue_ = some p) (hq : heap[p]? = some q)
    (htext : k.current_text_ = to_string (Int.ofNat n)) (hn : n < 2147483647) :
    (∀ m rest, q = m :: rest →
      k.base.recvMessage heap = some (some m, heap.set p rest) ∧
      k.update heap ev
        = some ({ k with current_text_ := to_string (Int.ofNat (n + 1)) }, heap.set p rest,
            .ok ())) ∧
    (q = [] → k.base.recvMessage heap = some (none, heap) ∧
      k.update heap ev = some (k, heap, .ok ())) := by
  constructor
  · intro m rest hcons
    subst hcons
    have hr : k.base.recvMessage heap = some (some m, heap.set p rest) := by
      simp [TruffleController.recvMessage, hp, hq]
    refine ⟨hr, ?_⟩
    unfold Counter.update
    rw [hr]
    simp only [htext, stoi_to_string n (by omega), preIncrement_of_lt n hn]
  · intro hnil
    subst hnil
    have hr : k.base.recvMessage heap = some (none, heap) := by
      simp [TruffleController.recvMessage, hp, hq]
    refine ⟨hr, ?_⟩
    unfold Counter.update
    rw [hr]

/-- Over a run of sends and `update` calls the text of the counter is the decimal form
of the number it started at plus the number of messages received. -/
theorem Counter.run_text (calls : List CounterCall) (k : Counter) (heap : QueueHeap)
    (bus : EventMessageBus) (p : QueuePtr) (q : List Message) (n : Nat)
    (hp : k.base.message_queue_ = some p) (hq : heap[p]? = some q)
    (hbus : mapFind bus.queues_ k.base.name_ = some p)
    (htext : k.current_text_ = to_string (Int.ofNat n))
    (hn : n + updateCount calls ≤ 2147483647) :
    ∃ k1 heap1 received, k.run calls heap bus = some (k1, heap1, bus, received) ∧
      k1.current_text_ = to_string (Int.ofNat (n + received)) ∧
      received ≤ updateCount calls := by
  induction calls generalizing k heap q n with
  | nil => exact ⟨k, heap, 0, rfl, htext, Nat.le_refl _⟩
  | cons call rest ih =>
    cases call with
    | send sender m =>
      have hlt := getElem?_lt_length heap p q hq
      have h1 : (heap.set p (q ++ [m]))[p]? = some (q ++ [m]) := List.getElem?_set_self hlt
      simp only [updateCount] at hn ⊢
      obtain ⟨k1, heap1, received, hrun, ht, hle⟩ :=
        ih k (heap.set p (q ++ [m])) (q ++ [m]) n hp h1 hbus htext hn
      refine ⟨k1, heap1, received, ?_, ht, hle⟩
      simp only [Counter.run,
        TruffleScene.sendMessage_queued sender heap bus k.base.name_ m p q hbus hq]
      exact hrun
    | update ev =>
      simp only [updateCount] at hn ⊢
      have hstep := Counter.update_step k heap p q n ev hp hq htext (by omega)
      cases q with
      | nil =>
        obtain ⟨hr, hu⟩ := hstep.2 rfl
        obtain ⟨k1, heap1, received, hrun, ht, hle⟩ :=
          ih k heap [] n hp hq hbus htext (by omega)
        refine ⟨k1, heap1, received, ?_, ht, by omega⟩
        simp only [Counter.run, hr, hu, hrun]
        simp
      | cons m tail =>
        obtain ⟨hr, hu⟩ := hstep.1 m tail rfl
        have hlt := getElem?_lt_length heap p _ hq
        have h1 : (heap.set p tail)[p]? = some tail := List.getElem?_set_self hlt
        obtain ⟨k1, heap1, received, hrun, ht, hle⟩ :=
          ih { k with current_text_ := to_string (Int.ofNat (n + 1)) } (heap.set p tail) tail
            (n + 1) hp h1 hbus rfl (by omega)
        refine ⟨k1, heap1, received + 1, ?_, ?_, by omega⟩
        · simp only [Counter.run, hr, hu, hrun]
          simp
        · rw [ht]
          congr 2
          omega

/-- C20: the text of a `Counter` starts as the decimal form of 0; when the text is the
decimal form of `n` with `n` below `2^31 - 1`, an `update` with a pending message
removes the oldest one and sets the text to the decimal form of `n + 1`, and an `update`
without a pending message leaves text and queue as they are; hence, over sends to the
counter and `update` calls that keep the count within `int`, the text is the decimal
form of `n` plus the number of messages received. -/
theorem C20_counter (k : Counter) (heap : QueueHeap) (p : QueuePtr) (q : List Message)
    (n : Nat) (ev : SDL_Event)
    (hp : k.base.message_queue_ = some p) (hq : heap[p]? = some q)
    (htext : k.current_text_ = to_string (Int.ofNat n)) (hn : n < 2147483647) :
    (Counter.new k.base).current_text_ = to_string (Int.ofNat 0) ∧
    (∀ m rest, q = m :: rest →
      k.update heap ev
        = some ({ k with current_text_ := to_string (Int.ofNat (n + 1)) }, heap.set p rest,
            .ok ())) ∧
    (q = [] → k.update heap ev = some (k, heap, .ok ())) ∧
    (∀ (bus : EventMessageBus) (calls : List CounterCall),
      mapFind bus.queues_ k.base.name_ = some p → n + updateCount calls ≤ 2147483647 →
      ∃ k1 heap1 received, k.run calls heap bus = some (k1, heap1, bus, received) ∧
        k1.current_text_ = to_string (Int.ofNat (n + received))) := by
  have hstep := Counter.update_step k heap p q n ev hp hq htext hn
  have hzero : (Counter.new k.base).current_text_ = to_string (Int.ofNat 0) := by
    show "0" = to_string (Int.ofNat 0)
    decide
  refine ⟨hzero, fun m rest hm => (hstep.1 m rest hm).2, fun hnil => (hstep.2 hnil).2, ?_⟩
  intro bus calls hbus hbound
  obtain ⟨k1, heap1, received, hrun, ht, _⟩ :=
    Counter.run_text calls k heap bus p q n hp hq hbus htext hbound
  exact ⟨k1, heap1, received, hrun, ht⟩

/-- C20 at a fresh counter with one pending message: the `update` removes it and the
text becomes `"1"`. -/
theorem C20_counter_witness :
    (Counter.new ⟨7, 1, [], some 0, "counter_behavior"⟩).update [[⟨"message"⟩]] ⟨SDL_KEYUP⟩
      = some (⟨⟨7, 1, [], some 0, "counter_behavior"⟩, "1"⟩, [[]], .ok ()) :=
  (C20_counter (Counter.new ⟨7, 1, [], some 0, "counter_behavior"⟩) [[⟨"message"⟩]] 0
    [⟨"message"⟩] 0 ⟨SDL_KEYUP⟩ rfl rfl (by decide) (by decide)).2.1 ⟨"message"⟩ [] rfl

end Truffle
